import Mathlib

/-!
Shallow embedding of the wrkflw workflow engine core:
`ExecutionEngine.execute` / `ExecutionEngine.executeStep` (engine module) and
`WorkflowStorage.saveSnapshot` / `WorkflowStorage.loadSnapshot` (storage module).

Modelling conventions:
* JavaScript values exchanged through the engine are modelled by `Value`
  (JSON-representable data; numbers are modelled as integers).
* A thrown JavaScript exception is an `EngineError`: Zod's `schema.parse`
  throws a `ZodError` (constructor `validation`), everything else in the core
  throws a plain `Error` (constructor `error`); `message` is the `.message`
  field of the thrown object.
* Zod schemas are modelled extensionally by their `parse` function.
* A step's TypeScript `execute` function is an arbitrary function of the
  observable step-execution context; its observable effect is its returned
  value or thrown error (`outcome`) together with the value of
  `context.state` after any `setState` calls it made (`finalState`), since
  `setState` writes directly into the shared execution context.
* `Date.now()` / `unixepoch()` timestamps are modelled by a logical clock
  (`Nat`) threaded through the engine and incremented at each call site.
* The interactions of one `execute()` call with the outside world are
  recorded as an `Event` trace: `save` for each `storage.saveSnapshot` call
  (with the snapshot value at call time; the engine awaits each save before
  mutating the context further) and `invoke` for each call of a step's
  execution function (with the step-execution context it received).
-/

namespace Wrkflw

/-- JSON-representable runtime values (numbers modelled as integers). -/
inductive Value where
  | null : Value
  | bool (b : Bool) : Value
  | num (n : Int) : Value
  | str (s : String) : Value
  | arr (elems : List Value) : Value
  | obj (fields : List (String × Value)) : Value

/-- JavaScript truthiness of a `Value` (arrays and objects are always truthy;
`null`, `false`, `0` and the empty string are falsy). -/
def Value.truthy : Value → Bool
  | .null => false
  | .bool b => b
  | .num n => n != 0
  | .str s => s ≠ ""
  | .arr _ => true
  | .obj _ => true

/-- Truthiness of an optional value; `none` models JavaScript `undefined`,
which is falsy. -/
def truthyOpt : Option Value → Bool
  | none => false
  | some v => v.truthy

/-- A thrown exception in the engine core: either a Zod validation error
(thrown by `schema.parse`) or a plain JavaScript `Error`. -/
inductive EngineError where
  | validation (message : String) : EngineError
  | error (message : String) : EngineError

/-- The `.message` field of the thrown error object. -/
def EngineError.message : EngineError → String
  | .validation m => m
  | .error m => m

/-- A Zod schema, modelled extensionally by its `parse` function:
`parse` returns the validated value or throws. -/
structure Schema where
  parse : Value → Except EngineError Value

/-- `StepResult` from the types module: tagged outcome of one step attempt. -/
inductive StepResult where
  | success (output : Value) (timestamp : Nat) : StepResult
  | failed (error : EngineError) (timestamp : Nat) : StepResult
  | running (timestamp : Nat) : StepResult

/-- The status tag of a `StepResult`. -/
def StepResult.isSuccess : StepResult → Bool
  | .success _ _ => true
  | _ => false

/-- Step results recorded so far in a run: the insertion-ordered JavaScript
object `context.stepResults`, modelled as an association list. -/
abbrev StepResults := List (String × StepResult)

/-- Lookup `stepResults[id]` (`none` models `undefined`: key absent). -/
def lookupStepResult (stepResults : StepResults) (id : String) :
    Option StepResult :=
  (stepResults.find? (fun p => p.1 = id)).map (fun p => p.2)

/-- JavaScript object assignment `stepResults[id] = result`: replaces the
value in place if the key exists, otherwise appends the new binding. -/
def setStepResult (stepResults : StepResults) (id : String)
    (result : StepResult) : StepResults :=
  match stepResults with
  | [] => [(id, result)]
  | (k, v) :: rest =>
    if k = id then (k, result) :: rest
    else (k, v) :: setStepResult rest id result

/-- `StepExecutionContext` from the types module, as observed by a step's
execution function: validated input, current workflow-level state
(`none` models `undefined`), the step results recorded so far, the
workflow's original validated input (returned by `getInitData`), and the
run/workflow ids. -/
structure StepExecutionContext where
  inputData : Value
  state : Option Value
  stepResults : StepResults
  initData : Value
  runId : String
  workflowId : String

/-- Observable effect of running a step's execution function: the returned
value or thrown error, and the value of `context.state` after any
`setState` calls made during the invocation (a function that never calls
`setState` leaves `finalState` equal to the `state` it received). -/
structure StepFnResult where
  outcome : Except EngineError Value
  finalState : Option Value

/-- A `Step`: id, input/output schemas and execution function. -/
structure Step where
  id : String
  inputSchema : Schema
  outputSchema : Schema
  execute : StepExecutionContext → StepFnResult

/-- A committed `Workflow`: id, schemas and the ordered step flow.
Every `StepFlowEntry` has `type: "step"`, so the step flow is modelled
directly as the list of steps. -/
structure Workflow where
  id : String
  inputSchema : Schema
  outputSchema : Schema
  stateSchema : Option Schema
  stepFlow : List Step

/-- `ExecutionContext` from the types module: the engine's in-memory state
for one run. -/
structure ExecutionContext where
  workflowId : String
  runId : String
  executionPath : List Nat
  stepResults : StepResults
  state : Option Value
  inputData : Value

/-- Run-level status of a snapshot. -/
inductive RunStatus where
  | running : RunStatus
  | success : RunStatus
  | failed : RunStatus
deriving DecidableEq

/-- `WorkflowSnapshot` from the types module: the durable projection of an
execution context handed to `storage.saveSnapshot`. -/
structure WorkflowSnapshot where
  runId : String
  workflowId : String
  status : RunStatus
  executionPath : List Nat
  stepResults : StepResults
  state : Option Value
  inputData : Value
  result : Option Value := none
  error : Option String := none
  timestamp : Nat

/-- Observable interaction of one `execute()` call: a `storage.saveSnapshot`
call or an invocation of a step's execution function. -/
inductive Event where
  | save (snapshot : WorkflowSnapshot) : Event
  | invoke (stepId : String) (context : StepExecutionContext) : Event

/-- The snapshots passed to `storage.saveSnapshot`, in call order. -/
def saves (events : List Event) : List WorkflowSnapshot :=
  events.filterMap (fun e => match e with
    | .save s => some s
    | _ => none)

/-- The step-function invocations, in call order. -/
def invokes (events : List Event) : List (String × StepExecutionContext) :=
  events.filterMap (fun e => match e with
    | .invoke id c => some (id, c)
    | _ => none)

/-- The `getStepResult` closure built inside `executeStep`: returns the
output of the target step when a `success` result is recorded under its id,
throws a plain `Error` ("has not been executed yet") when no result is
recorded, and throws a plain `Error` ("did not complete successfully") when
the recorded result is not a success. -/
def getStepResult (stepResults : StepResults) (targetStepId : String) :
    Except EngineError Value :=
  match lookupStepResult stepResults targetStepId with
  | none =>
    .error (.error ("Step " ++ targetStepId ++ " has not been executed yet"))
  | some result =>
    match result with
    | .success output _ => .ok output
    | _ =>
      .error
        (.error ("Step " ++ targetStepId ++ " did not complete successfully"))

/-- `ExecutionEngine.executeStep`: validates the candidate input against the
step's input schema (a thrown `ZodError` is caught and becomes a `failed`
result without invoking the execution function); otherwise builds the step
execution context, invokes the execution function (its `setState` effects
land in the returned context even if it then throws), validates a returned
value against the output schema, and returns the resulting `StepResult`
together with the updated execution context and the trace of the
invocation. `timestamp` is the `Date.now()` captured at entry. -/
def executeStep (step : Step) (context : ExecutionContext)
    (inputData : Value) (timestamp : Nat) :
    StepResult × ExecutionContext × List Event :=
  match step.inputSchema.parse inputData with
  | .error e => (.failed e timestamp, context, [])
  | .ok validatedInput =>
    let stepContext : StepExecutionContext :=
      { inputData := validatedInput
        state := context.state
        stepResults := context.stepResults
        initData := context.inputData
        runId := context.runId
        workflowId := context.workflowId }
    let fnResult := step.execute stepContext
    let context' := { context with state := fnResult.finalState }
    let events := [Event.invoke step.id stepContext]
    match fnResult.outcome with
    | .error e => (.failed e timestamp, context', events)
    | .ok output =>
      match step.outputSchema.parse output with
      | .error e => (.failed e timestamp, context', events)
      | .ok validatedOutput =>
        (.success validatedOutput timestamp, context', events)

/-- Result of the body of `execute`'s try block from loop index `i` on:
the returned validated output or the thrown error, the execution context as
left behind (the `catch` block reads it), the clock after the last
`Date.now()` call, and the event trace. -/
structure LoopResult where
  outcome : Except EngineError Value
  context : ExecutionContext
  clock : Nat
  events : List Event

/-- The `for` loop of `ExecutionEngine.execute` over the remaining step-flow
entries starting at index `i`, followed by the output validation and the
success snapshot of the try block.  Per iteration (mirroring the source):
push `i` onto the execution path; run `executeStep` with the current
output; record the result under the step's id; if the result is `failed`,
save a `failed` snapshot (error = the result's error message) and throw
the result's error; if it is `success`, the current output becomes the
step's output; save a `running` progress snapshot and continue.  After the
loop: validate the current output against the workflow's output schema
(throwing on failure), save a `success` snapshot carrying the validated
result, and return it. -/
def runLoop (workflow : Workflow) (runId : String) (validatedInput : Value)
    (steps : List Step) (i : Nat) (context : ExecutionContext)
    (currentOutput : Value) (clock : Nat) : LoopResult :=
  match steps with
  | [] =>
    match workflow.outputSchema.parse currentOutput with
    | .error e => ⟨.error e, context, clock, []⟩
    | .ok validatedOutput =>
      let snap : WorkflowSnapshot :=
        { runId := runId
          workflowId := workflow.id
          status := .success
          executionPath := context.executionPath
          stepResults := context.stepResults
          state := context.state
          inputData := validatedInput
          result := some validatedOutput
          timestamp := clock }
      ⟨.ok validatedOutput, context, clock + 1, [Event.save snap]⟩
  | step :: rest =>
    let context1 :=
      { context with executionPath := context.executionPath ++ [i] }
    let stepRun := executeStep step context1 currentOutput clock
    let result := stepRun.1
    let stepEvents := stepRun.2.2
    let context3 :=
      { stepRun.2.1 with
        stepResults := setStepResult stepRun.2.1.stepResults step.id result }
    match result with
    | .failed e _ =>
      let snap : WorkflowSnapshot :=
        { runId := runId
          workflowId := workflow.id
          status := .failed
          executionPath := context3.executionPath
          stepResults := context3.stepResults
          state := context3.state
          inputData := validatedInput
          error := some e.message
          timestamp := clock + 1 }
      ⟨.error e, context3, clock + 2, stepEvents ++ [Event.save snap]⟩
    | result =>
      let currentOutput' :=
        match result with
        | .success output _ => output
        | _ => currentOutput
      let snap : WorkflowSnapshot :=
        { runId := runId
          workflowId := workflow.id
          status := .running
          executionPath := context3.executionPath
          stepResults := context3.stepResults
          state := context3.state
          inputData := validatedInput
          timestamp := clock + 1 }
      let recur :=
        runLoop workflow runId validatedInput rest (i + 1) context3
          currentOutput' (clock + 2)
      ⟨recur.outcome, recur.context, recur.clock,
        stepEvents ++ [Event.save snap] ++ recur.events⟩

/-- The nullish-coalescing initial state of `execute`:
`initialState ?? (workflow.stateSchema ? ({} as TState) : undefined)`.
A provided non-nullish value wins; otherwise the empty object when a state
schema is declared, else `undefined`. -/
def initialContextState (workflow : Workflow) (initialState : Option Value) :
    Option Value :=
  match initialState with
  | some Value.null =>
    match workflow.stateSchema with
    | some _ => some (Value.obj [])
    | none => none
  | some v => some v
  | none =>
    match workflow.stateSchema with
    | some _ => some (Value.obj [])
    | none => none

/-- `ExecutionEngine.execute`: validates the input against the workflow's
input schema (note: this `parse` call happens before the initial snapshot
save and outside the try/catch, so a thrown validation error propagates
with no snapshot written); builds the fresh execution context; saves the
initial `running` snapshot; runs the step loop and output validation
inside the try block; on any error thrown from the try block, the catch
block saves a `failed` snapshot built from the current context
(unconditionally) and rethrows.  Returns the call's outcome and the event
trace. -/
def execute (workflow : Workflow) (runId : String) (inputData : Value)
    (initialState : Option Value) (clock : Nat) :
    Except EngineError Value × List Event :=
  match workflow.inputSchema.parse inputData with
  | .error e => (.error e, [])
  | .ok validatedInput =>
    let context : ExecutionContext :=
      { workflowId := workflow.id
        runId := runId
        executionPath := []
        stepResults := []
        state := initialContextState workflow initialState
        inputData := validatedInput }
    let initialSnap : WorkflowSnapshot :=
      { runId := runId
        workflowId := workflow.id
        status := .running
        executionPath := []
        stepResults := []
        state := context.state
        inputData := validatedInput
        timestamp := clock }
    let loop :=
      runLoop workflow runId validatedInput workflow.stepFlow 0 context
        validatedInput (clock + 1)
    match loop.outcome with
    | .ok output => (.ok output, Event.save initialSnap :: loop.events)
    | .error e =>
      let failSnap : WorkflowSnapshot :=
        { runId := runId
          workflowId := workflow.id
          status := .failed
          executionPath := loop.context.executionPath
          stepResults := loop.context.stepResults
          state := loop.context.state
          inputData := validatedInput
          error := some e.message
          timestamp := loop.clock }
      (.error e,
        Event.save initialSnap :: (loop.events ++ [Event.save failSnap]))

/-- A row of the `wrkflw_workflow_runs` table.  TEXT columns that hold JSON
(`execution_path`, `step_results`, `state`, `input_data`, `result`) are
modelled by the value they serialize (`JSON.stringify`/`JSON.parse` are
mutually inverse on the modelled value domain, and the JSON text of any
value is a non-empty — hence truthy — string); a SQL `NULL` is `none`. -/
structure Row where
  run_id : String
  workflow_id : String
  status : RunStatus
  execution_path : List Nat
  step_results : StepResults
  state : Option Value
  input_data : Value
  result : Option Value
  error : Option String
  created_at : Nat
  updated_at : Nat

/-- The database: the rows of `wrkflw_workflow_runs` in insertion order. -/
abbrev Database := List Row

/-- The `result` column value bound by `saveSnapshot`:
`snapshot.result ? JSON.stringify(snapshot.result) : null` — the JSON text
when the result value is truthy, SQL `NULL` otherwise. -/
def resultColumn (result : Option Value) : Option Value :=
  if truthyOpt result then result else none

/-- `WorkflowStorage.saveSnapshot`: an `INSERT ... ON CONFLICT(run_id) DO
UPDATE`.  When no row has the snapshot's run id, a full new row is inserted
(`created_at` and `updated_at` default to `unixepoch()`, modelled by
`now`).  When a row with that run id exists, exactly the columns `status`,
`execution_path`, `step_results`, `state`, `result`, `error` and
`updated_at` are overwritten from the excluded row; `run_id`,
`workflow_id`, `input_data` and `created_at` keep their stored values. -/
def saveSnapshot (db : Database) (snapshot : WorkflowSnapshot) (now : Nat) :
    Database :=
  match db with
  | [] =>
    [{ run_id := snapshot.runId
       workflow_id := snapshot.workflowId
       status := snapshot.status
       execution_path := snapshot.executionPath
       step_results := snapshot.stepResults
       state := snapshot.state
       input_data := snapshot.inputData
       result := resultColumn snapshot.result
       error := snapshot.error
       created_at := now
       updated_at := now }]
  | row :: rest =>
    if row.run_id = snapshot.runId then
      { row with
        status := snapshot.status
        execution_path := snapshot.executionPath
        step_results := snapshot.stepResults
        state := snapshot.state
        result := resultColumn snapshot.result
        error := snapshot.error
        updated_at := now } :: rest
    else row :: saveSnapshot rest snapshot now

/-- `WorkflowStorage.loadSnapshot`: selects the row with the given run id
and rebuilds a snapshot from it.  The `result` field is
`row[7] ? JSON.parse(row[7]) : undefined`: `undefined` when the column is
`NULL`, otherwise the parsed value (JSON text is always truthy). -/
def loadSnapshot (db : Database) (runId : String) :
    Option WorkflowSnapshot :=
  match db.find? (fun row => row.run_id = runId) with
  | none => none
  | some row =>
    some
      { runId := row.run_id
        workflowId := row.workflow_id
        status := row.status
        executionPath := row.execution_path
        stepResults := row.step_results
        state := row.state
        inputData := row.input_data
        result := row.result
        error := row.error
        timestamp := row.updated_at }

/-- Whether a run status is `failed`. -/
def RunStatus.isFailed : RunStatus → Bool
  | .failed => true
  | _ => false

/-- The `failed`-status snapshots among the saved snapshots of a trace. -/
def failedSaves (events : List Event) : List WorkflowSnapshot :=
  (saves events).filter (fun s => s.status.isFailed)

/-- Relation between two consecutively written snapshots of one run:
the execution-path length does not decrease, and the status either stays
the same or moves from `running` to a terminal status (so it never leaves
a terminal status, and never changes between `success` and `failed`). -/
def snapshotStep (s t : WorkflowSnapshot) : Prop :=
  s.executionPath.length ≤ t.executionPath.length ∧
    (s.status = t.status ∨ (s.status = .running ∧ t.status ≠ .running))

/-! Concrete fixtures used by witnesses and counterexamples. -/

/-- A schema that accepts every value unchanged (like `z.any()`). -/
def anySchema : Schema := ⟨fun v => .ok v⟩

/-- A schema that accepts exactly numbers (like `z.number()`). -/
def numSchema : Schema :=
  ⟨fun v =>
    match v with
    | .num n => .ok (.num n)
    | _ => .error (.validation "Expected number")⟩

/-- A step that adds one to its numeric input and never touches the state. -/
def addOneStep : Step :=
  { id := "add-one"
    inputSchema := numSchema
    outputSchema := numSchema
    execute := fun c =>
      { outcome :=
          .ok (match c.inputData with | .num n => .num (n + 1) | v => v)
        finalState := c.state } }

/-- A step whose execution function always throws. -/
def boomStep : Step :=
  { id := "boom"
    inputSchema := anySchema
    outputSchema := anySchema
    execute := fun c =>
      { outcome := .error (.error "boom"), finalState := c.state } }

/-- A step that calls `setState` with the number `7` and echoes its input. -/
def setStateStep : Step :=
  { id := "set-state"
    inputSchema := anySchema
    outputSchema := anySchema
    execute := fun c =>
      { outcome := .ok c.inputData, finalState := some (.num 7) } }

/-- A step that returns the current workflow state (or `null` when the
state is undefined) and never calls `setState`. -/
def readStateStep : Step :=
  { id := "read-state"
    inputSchema := anySchema
    outputSchema := anySchema
    execute := fun c =>
      { outcome := .ok (match c.state with | some v => v | none => .null)
        finalState := c.state } }

/-- Two-step workflow: `add-one` then the always-throwing `boom`. -/
def wfTwo : Workflow :=
  { id := "wf-two"
    inputSchema := numSchema
    outputSchema := anySchema
    stateSchema := none
    stepFlow := [addOneStep, boomStep] }

/-- Two-step workflow exercising cross-step state propagation. -/
def wfState : Workflow :=
  { id := "wf-state"
    inputSchema := anySchema
    outputSchema := anySchema
    stateSchema := none
    stepFlow := [setStateStep, readStateStep] }

/-- One-step workflow with a declared state schema. -/
def wfDeclared : Workflow :=
  { id := "wf-declared"
    inputSchema := anySchema
    outputSchema := anySchema
    stateSchema := some anySchema
    stepFlow := [addOneStep] }

/-- A concrete stored row used by the storage witnesses. -/
def row0 : Row :=
  { run_id := "r-old"
    workflow_id := "wf-two"
    status := .running
    execution_path := []
    step_results := []
    state := none
    input_data := .num 1
    result := none
    error := none
    created_at := 10
    updated_at := 10 }

/-- A concrete snapshot carrying a truthy result. -/
def snapTruthy : WorkflowSnapshot :=
  { runId := "r-old"
    workflowId := "wf-two"
    status := .success
    executionPath := [0]
    stepResults := []
    state := none
    inputData := .num 1
    result := some (.num 42)
    error := none
    timestamp := 11 }

/-- A concrete snapshot of a successful run whose final output is the
falsy number `0`. -/
def snapFalsy : WorkflowSnapshot :=
  { runId := "r-falsy"
    workflowId := "wf-two"
    status := .success
    executionPath := [0]
    stepResults := []
    state := none
    inputData := .num 1
    result := some (.num 0)
    error := none
    timestamp := 12 }

/-- A concrete execution context used by witnesses. -/
def ctx0 : ExecutionContext :=
  { workflowId := "wf-two"
    runId := "r1"
    executionPath := []
    stepResults := []
    state := none
    inputData := .num 1 }

/-- Concrete recorded step results used by the `getStepResult` witness. -/
def stepResultsFix : StepResults :=
  [("a", .success (.num 1) 0), ("b", .failed (.error "x") 0)]

/-- Three-step workflow: a failing middle step with a step after it. -/
def wfThree : Workflow :=
  { id := "wf-three"
    inputSchema := numSchema
    outputSchema := anySchema
    stateSchema := none
    stepFlow := [addOneStep, boomStep, readStateStep] }

/-- The final persisted snapshot of the witness run of `wf-three`. -/
def snapThree : WorkflowSnapshot :=
  { runId := "r3"
    workflowId := "wf-three"
    status := RunStatus.failed
    executionPath := [0, 1]
    stepResults :=
      [("add-one", .success (.num 2) 1),
       ("boom", .failed (.error "boom") 3)]
    state := none
    inputData := .num 1
    result := none
    error := some "boom"
    timestamp := 5 }

/-! Helper lemmas about traces. -/

theorem saves_append (l₁ l₂ : List Event) :
    saves (l₁ ++ l₂) = saves l₁ ++ saves l₂ := by
  simp [saves]

theorem saves_save_cons (s : WorkflowSnapshot) (l : List Event) :
    saves (Event.save s :: l) = s :: saves l := by
  simp [saves]

theorem saves_invoke_cons (id : String) (c : StepExecutionContext)
    (l : List Event) : saves (Event.invoke id c :: l) = saves l := by
  simp [saves]

theorem saves_nil : saves [] = [] := rfl

theorem invokes_append (l₁ l₂ : List Event) :
    invokes (l₁ ++ l₂) = invokes l₁ ++ invokes l₂ := by
  simp [invokes]

theorem invokes_save_cons (s : WorkflowSnapshot) (l : List Event) :
    invokes (Event.save s :: l) = invokes l := by
  simp [invokes]

theorem invokes_invoke_cons (id : String) (c : StepExecutionContext)
    (l : List Event) :
    invokes (Event.invoke id c :: l) = (id, c) :: invokes l := by
  simp [invokes]

theorem invokes_nil : invokes [] = [] := rfl

/-- The events of `executeStep` never contain a snapshot save. -/
theorem executeStep_saves (step : Step) (context : ExecutionContext)
    (input : Value) (ts : Nat) :
    saves (executeStep step context input ts).2.2 = [] := by
  simp only [executeStep]
  split
  · rfl
  · split
    · rfl
    · split <;> rfl

/-- The context returned by `executeStep` differs from the context it was
given at most in its `state` field. -/
theorem executeStep_context (step : Step) (context : ExecutionContext)
    (input : Value) (ts : Nat) :
    ∃ st, (executeStep step context input ts).2.1 =
      { context with state := st } := by
  simp only [executeStep]
  split
  · exact ⟨context.state, rfl⟩
  · split
    · exact ⟨_, rfl⟩
    · split
      · exact ⟨_, rfl⟩
      · exact ⟨_, rfl⟩

/-- The nullish fallback of the execution context state: a provided
non-null initial state is used as given. -/
theorem initialContextState_some (wf : Workflow) (v : Value)
    (h : v ≠ Value.null) : initialContextState wf (some v) = some v := by
  cases v <;> simp [initialContextState] at h ⊢

/-- With no initial state and a declared state schema, the context state
starts as the empty object. -/
theorem initialContextState_declared (wf : Workflow) (sch : Schema)
    (h : wf.stateSchema = some sch) :
    initialContextState wf none = some (Value.obj []) := by
  simp [initialContextState, h]

/-- With no initial state and no declared state schema, the context state
starts undefined. -/
theorem initialContextState_undeclared (wf : Workflow)
    (h : wf.stateSchema = none) : initialContextState wf none = none := by
  simp [initialContextState, h]

/-- C5: for every step and every candidate input that violates the step's
declared input shape, `executeStep` returns a `failed` StepResult, leaves
the execution context unchanged and emits no events — in particular the
step's execution function is never invoked, which is also witnessed by the
result being the same for every execution function the step could carry. -/
theorem c5_shape_enforcement (step : Step) (context : ExecutionContext)
    (input : Value) (ts : Nat) (e : EngineError)
    (hparse : step.inputSchema.parse input = .error e) :
    executeStep step context input ts =
      (.failed e ts, context, []) ∧
    ∀ f, executeStep { step with execute := f } context input ts =
      (.failed e ts, context, []) := by
  constructor
  · simp only [executeStep, hparse]
  · intro f
    simp only [executeStep, hparse]

/-- Witness for C5 at a concrete step and input. -/
theorem c5_witness :
    executeStep addOneStep ctx0 (Value.str "bad") 3 =
      (.failed (.validation "Expected number") 3, ctx0, []) :=
  (c5_shape_enforcement addOneStep ctx0 (Value.str "bad") 3
    (.validation "Expected number") rfl).1

/-- C7: `getStepResult` returns the recorded output when the target step
has a `success` result in this run's step-results map, and otherwise
throws a plain `Error` — one message when the step has no recorded result
yet, another when its recorded result is not a success — and in either
case the thrown error is never a validation failure. -/
theorem c7_get_step_result (stepResults : StepResults) (id : String) :
    (∀ out ts, lookupStepResult stepResults id = some (.success out ts) →
        getStepResult stepResults id = .ok out) ∧
    (lookupStepResult stepResults id = none →
        getStepResult stepResults id =
          .error (.error ("Step " ++ id ++ " has not been executed yet"))) ∧
    (∀ r, lookupStepResult stepResults id = some r → r.isSuccess = false →
        getStepResult stepResults id =
          .error
            (.error ("Step " ++ id ++ " did not complete successfully"))) ∧
    (∀ e, getStepResult stepResults id = .error e →
        ∀ m, e ≠ EngineError.validation m) := by
  refine ⟨?_, ?_, ?_, ?_⟩
  · intro out ts h
    simp [getStepResult, h]
  · intro h
    simp [getStepResult, h]
  · intro r h hr
    cases r with
    | success out ts => simp [StepResult.isSuccess] at hr
    | failed e ts => simp [getStepResult, h]
    | running ts => simp [getStepResult, h]
  · intro e he m
    unfold getStepResult at he
    cases h : lookupStepResult stepResults id with
    | none =>
      rw [h] at he
      simp only [Except.error.injEq] at he
      subst he
      intro hc
      cases hc
    | some r =>
      rw [h] at he
      cases r with
      | success out ts => simp at he
      | failed e' ts =>
        simp only [Except.error.injEq] at he
        subst he
        intro hc
        cases hc
      | running ts =>
        simp only [Except.error.injEq] at he
        subst he
        intro hc
        cases hc

/-- Witness for C7 at a concrete step-results map: a recorded success is
returned, a missing id and a failed id each raise the corresponding plain
lookup error. -/
theorem c7_witness :
    getStepResult stepResultsFix "a" = .ok (.num 1) ∧
    getStepResult stepResultsFix "c" =
      .error (.error "Step c has not been executed yet") ∧
    getStepResult stepResultsFix "b" =
      .error (.error "Step b did not complete successfully") :=
  ⟨(c7_get_step_result stepResultsFix "a").1 (.num 1) 0 rfl,
   (c7_get_step_result stepResultsFix "c").2.1 rfl,
   (c7_get_step_result stepResultsFix "b").2.2.1 (.failed (.error "x") 0)
     rfl rfl⟩

/-- C1 (amended): when the input data fails validation against the
workflow's input shape, `execute` surfaces the validation failure to the
caller without persisting any snapshot at all (the `parse` call sits
before the initial save and outside the try/catch), and never enters the
step loop: the event trace is empty, so no snapshot is saved and no step
execution function is invoked. -/
theorem c1_input_validation_no_snapshot (wf : Workflow) (runId : String)
    (input : Value) (initialState : Option Value) (clock : Nat)
    (e : EngineError) (hparse : wf.inputSchema.parse input = .error e) :
    execute wf runId input initialState clock = (.error e, []) ∧
    saves (execute wf runId input initialState clock).2 = [] ∧
    invokes (execute wf runId input initialState clock).2 = [] := by
  refine ⟨?_, ?_, ?_⟩ <;> simp only [execute, hparse] <;> rfl

/-- Witness for C1's amended theorem at a concrete workflow and input. -/
theorem c1_witness :
    execute wfTwo "r9" (Value.bool true) none 5 =
      (.error (.validation "Expected number"), []) :=
  (c1_input_validation_no_snapshot wfTwo "r9" (Value.bool true) none 5
    (.validation "Expected number") rfl).1

/-- Counterexample to C1 as stated: running `wf-two` with the string input
"oops" fails input validation, yet the run persists no snapshot at all —
in particular no `failed` snapshot is written before the failure surfaces
to the caller. -/
theorem c1_counterexample :
    wfTwo.inputSchema.parse (Value.str "oops") =
      .error (.validation "Expected number") ∧
    (execute wfTwo "r1" (Value.str "oops") none 0).1 =
      .error (.validation "Expected number") ∧
    ¬ ∃ s ∈ saves (execute wfTwo "r1" (Value.str "oops") none 0).2,
        s.status = RunStatus.failed := by
  refine ⟨rfl, rfl, ?_⟩
  rintro ⟨s, hs, -⟩
  have hnil : saves (execute wfTwo "r1" (Value.str "oops") none 0).2 = [] :=
    rfl
  rw [hnil] at hs
  exact absurd hs (List.not_mem_nil s)

/-- C9: at the start of every `execute` call (observed through the initial
snapshot, which records the fresh execution context), the context state is
the provided `initialState` when the caller supplies a non-null one;
otherwise it is the empty object when the workflow declares a state
schema, and undefined when it does not. -/
theorem c9_initial_state (wf : Workflow) (runId : String) (input : Value)
    (initialState : Option Value) (clock : Nat) (v : Value)
    (hparse : wf.inputSchema.parse input = .ok v) :
    ∃ s0,
      (saves (execute wf runId input initialState clock).2).head? = some s0 ∧
      s0.status = RunStatus.running ∧
      s0.executionPath = [] ∧
      (∀ v', initialState = some v' → v' ≠ Value.null →
        s0.state = some v') ∧
      (initialState = none → ∀ sch, wf.stateSchema = some sch →
        s0.state = some (Value.obj [])) ∧
      (initialState = none → wf.stateSchema = none → s0.state = none) := by
  have htrace : ∃ rest,
      (execute wf runId input initialState clock).2 =
        Event.save
          { runId := runId
            workflowId := wf.id
            status := RunStatus.running
            executionPath := []
            stepResults := []
            state := initialContextState wf initialState
            inputData := v
            timestamp := clock } :: rest := by
    simp only [execute, hparse]
    split
    · exact ⟨_, rfl⟩
    · exact ⟨_, rfl⟩
  obtain ⟨rest, htrace⟩ := htrace
  refine
    ⟨{ runId := runId
       workflowId := wf.id
       status := RunStatus.running
       executionPath := []
       stepResults := []
       state := initialContextState wf initialState
       inputData := v
       timestamp := clock }, ?_, rfl, rfl, ?_, ?_, ?_⟩
  · rw [htrace, saves_save_cons]
    rfl
  · intro v' hv hnull
    subst hv
    simp only [initialContextState_some wf v' hnull]
  · intro hnone sch hsch
    subst hnone
    simp only [initialContextState_declared wf sch hsch]
  · intro hnone hsch
    subst hnone
    simp only [initialContextState_undeclared wf hsch]

/-- Witness for C9: a provided initial state is used as given; with none
provided, a declared state schema yields the empty object and an
undeclared one yields undefined. -/
theorem c9_witness :
    (∃ s0,
      (saves (execute wfTwo "r2" (Value.num 1) (some (Value.num 5)) 0).2).head?
        = some s0 ∧ s0.state = some (Value.num 5)) ∧
    (∃ s1,
      (saves (execute wfDeclared "r3" (Value.num 1) none 0).2).head?
        = some s1 ∧ s1.state = some (Value.obj [])) ∧
    (∃ s2,
      (saves (execute wfTwo "r4" (Value.num 1) none 0).2).head?
        = some s2 ∧ s2.state = none) := by
  refine ⟨?_, ?_, ?_⟩
  · obtain ⟨s0, hhead, -, -, hsome, -, -⟩ :=
      c9_initial_state wfTwo "r2" (Value.num 1) (some (Value.num 5)) 0
        (Value.num 1) rfl
    exact ⟨s0, hhead, hsome (Value.num 5) rfl (by simp)⟩
  · obtain ⟨s1, hhead, -, -, -, hdecl, -⟩ :=
      c9_initial_state wfDeclared "r3" (Value.num 1) none 0 (Value.num 1) rfl
    exact ⟨s1, hhead, hdecl rfl anySchema rfl⟩
  · obtain ⟨s2, hhead, -, -, -, -, hundecl⟩ :=
      c9_initial_state wfTwo "r4" (Value.num 1) none 0 (Value.num 1) rfl
    exact ⟨s2, hhead, hundecl rfl rfl⟩

/-- C8: `saveSnapshot` is an upsert keyed by run id.  For a run id not yet
stored it appends the full row, with `created_at` and `updated_at` both
set to the current time; for an existing run id it rewrites exactly the
mutable columns (status, execution path, step results, state, result,
error, updated-at) of the first matching row, preserves that row's
`run_id`, `workflow_id`, `input_data` and `created_at`, and leaves every
other row untouched. -/
theorem c8_save_snapshot_upsert (db : Database) (snapshot : WorkflowSnapshot)
    (now : Nat) :
    ((∀ r ∈ db, r.run_id ≠ snapshot.runId) →
      saveSnapshot db snapshot now =
        db ++
          [{ run_id := snapshot.runId
             workflow_id := snapshot.workflowId
             status := snapshot.status
             execution_path := snapshot.executionPath
             step_results := snapshot.stepResults
             state := snapshot.state
             input_data := snapshot.inputData
             result := resultColumn snapshot.result
             error := snapshot.error
             created_at := now
             updated_at := now }]) ∧
    (∀ pre row post, db = pre ++ row :: post →
      (∀ r ∈ pre, r.run_id ≠ snapshot.runId) →
      row.run_id = snapshot.runId →
      ∃ row',
        saveSnapshot db snapshot now = pre ++ row' :: post ∧
        row'.status = snapshot.status ∧
        row'.execution_path = snapshot.executionPath ∧
        row'.step_results = snapshot.stepResults ∧
        row'.state = snapshot.state ∧
        row'.result = resultColumn snapshot.result ∧
        row'.error = snapshot.error ∧
        row'.updated_at = now ∧
        row'.run_id = row.run_id ∧
        row'.workflow_id = row.workflow_id ∧
        row'.input_data = row.input_data ∧
        row'.created_at = row.created_at) := by
  constructor
  · intro habs
    induction db with
    | nil => rfl
    | cons r rest ih =>
      have hne : r.run_id ≠ snapshot.runId := habs r (by simp)
      simp only [saveSnapshot, if_neg hne, List.cons_append,
        List.cons.injEq, true_and]
      exact ih (fun r' hr' => habs r' (by simp [hr']))
  · intro pre
    induction pre generalizing db with
    | nil =>
      intro row post hdb hpre hrow
      subst hdb
      refine
        ⟨{ row with
           status := snapshot.status
           execution_path := snapshot.executionPath
           step_results := snapshot.stepResults
           state := snapshot.state
           result := resultColumn snapshot.result
           error := snapshot.error
           updated_at := now }, ?_, rfl, rfl, rfl, rfl, rfl, rfl, rfl, rfl,
          rfl, rfl, rfl⟩
      simp only [List.nil_append, saveSnapshot, if_pos hrow]
    | cons p pre' ih =>
      intro row post hdb hpre hrow
      subst hdb
      have hne : p.run_id ≠ snapshot.runId := hpre p (by simp)
      obtain ⟨row', hsave, hprops⟩ :=
        ih (pre' ++ row :: post) row post rfl
          (fun r hr => hpre r (by simp [hr])) hrow
      refine ⟨row', ?_, hprops⟩
      simp only [List.cons_append, saveSnapshot, if_neg hne]
      exact congrArg (List.cons p) hsave

/-- Witness for C8: inserting into an empty table creates the full row
with `created_at = updated_at = now`, while upserting over a stored row
overwrites the mutable columns and keeps the original `created_at` and
`input_data`. -/
theorem c8_witness :
    (saveSnapshot [] snapTruthy 20 =
      [{ run_id := "r-old"
         workflow_id := "wf-two"
         status := RunStatus.success
         execution_path := [0]
         step_results := []
         state := none
         input_data := .num 1
         result := some (.num 42)
         error := none
         created_at := 20
         updated_at := 20 }]) ∧
    (∃ row',
      saveSnapshot [row0] snapTruthy 20 = [row'] ∧
      row'.status = RunStatus.success ∧
      row'.result = some (.num 42) ∧
      row'.updated_at = 20 ∧
      row'.created_at = 10 ∧
      row'.input_data = .num 1) := by
  constructor
  · exact (c8_save_snapshot_upsert [] snapTruthy 20).1 (by simp)
  · obtain ⟨row', hsave, h1, -, -, -, h5, -, h7, -, -, h10, h11⟩ :=
      (c8_save_snapshot_upsert [row0] snapTruthy 20).2 [] row0 [] rfl
        (by simp) rfl
    exact ⟨row', hsave, h1, h5, h7, h11, by rw [h10]; rfl⟩

/-- The snapshot read back right after a `saveSnapshot` carries the
truthiness-gated result column. -/
theorem loadSnapshot_saveSnapshot (db : Database)
    (snapshot : WorkflowSnapshot) (now : Nat) :
    (loadSnapshot (saveSnapshot db snapshot now) snapshot.runId).map
        (fun s => s.result) = some (resultColumn snapshot.result) := by
  induction db with
  | nil => simp [saveSnapshot, loadSnapshot]
  | cons row rest ih =>
    by_cases h : row.run_id = snapshot.runId
    · simp [saveSnapshot, loadSnapshot, h]
    · simp only [saveSnapshot, if_neg h]
      simp only [loadSnapshot, List.find?] at ih ⊢
      rw [decide_eq_false h]
      exact ih

/-- C10: a snapshot's `result` survives the save/load round trip exactly
when it is truthy: a truthy result is stored and read back unchanged,
while any falsy result value (0, false, the empty string, null — and an
absent result) is stored as SQL NULL and read back as undefined, so a
successful run whose final output is falsy loses its result in the
durable record. -/
theorem c10_result_truthiness (db : Database) (snapshot : WorkflowSnapshot)
    (now : Nat) :
    ∃ s', loadSnapshot (saveSnapshot db snapshot now) snapshot.runId =
        some s' ∧
      (truthyOpt snapshot.result = true → s'.result = snapshot.result) ∧
      (truthyOpt snapshot.result = false → s'.result = none) ∧
      (∀ v, snapshot.result = some v → v.truthy = false →
        s'.result ≠ snapshot.result) := by
  obtain ⟨s', hload, hres⟩ :=
    Option.map_eq_some'.mp (loadSnapshot_saveSnapshot db snapshot now)
  refine ⟨s', hload, ?_, ?_, ?_⟩
  · intro ht
    rw [hres]
    simp [resultColumn, ht]
  · intro hf
    rw [hres]
    simp [resultColumn, hf]
  · intro v hv hf
    rw [hres, hv]
    simp [resultColumn, truthyOpt, hv, hf]

/-- Witness for C10: the truthy result 42 round-trips, while the falsy
result 0 of a successful run is read back as undefined. -/
theorem c10_witness :
    (∃ s', loadSnapshot (saveSnapshot [] snapTruthy 20) "r-old" = some s' ∧
      s'.result = some (.num 42)) ∧
    (∃ s', loadSnapshot (saveSnapshot [] snapFalsy 20) "r-falsy" = some s' ∧
      s'.result = none ∧ snapFalsy.result = some (.num 0) ∧
      snapFalsy.status = RunStatus.success) := by
  constructor
  · obtain ⟨s', hload, ht, -, -⟩ := c10_result_truthiness [] snapTruthy 20
    exact ⟨s', hload, ht rfl⟩
  · obtain ⟨s', hload, -, hf, -⟩ := c10_result_truthiness [] snapFalsy 20
    exact ⟨s', hload, hf rfl, rfl, rfl⟩

/-! Helper lemmas about `failedSaves`. -/

theorem failedSaves_append (l₁ l₂ : List Event) :
    failedSaves (l₁ ++ l₂) = failedSaves l₁ ++ failedSaves l₂ := by
  simp [failedSaves, saves_append]

theorem failedSaves_save_cons (s : WorkflowSnapshot) (l : List Event) :
    failedSaves (Event.save s :: l) =
      if s.status.isFailed then s :: failedSaves l else failedSaves l := by
  by_cases h : s.status.isFailed <;>
    simp [failedSaves, saves_save_cons, List.filter_cons, h]

theorem failedSaves_of_saves_nil (l : List Event) (h : saves l = []) :
    failedSaves l = [] := by
  simp [failedSaves, h]


theorem failedSaves_nil : failedSaves [] = [] := rfl

theorem runLoop_failedSaves (wf : Workflow) (runId : String)
    (validatedInput : Value) :
    ∀ (steps : List Step) (i : Nat) (context : ExecutionContext)
      (currentOutput : Value) (clock : Nat),
      (failedSaves
          (runLoop wf runId validatedInput steps i context currentOutput
            clock).events).length ≤ 1 ∧
      (∀ v,
        (runLoop wf runId validatedInput steps i context currentOutput
            clock).outcome = .ok v →
        failedSaves
            (runLoop wf runId validatedInput steps i context currentOutput
              clock).events = []) := by
  intro steps
  induction steps with
  | nil =>
    intro i context currentOutput clock
    simp only [runLoop]
    split
    · exact ⟨by simp [failedSaves, saves], fun v hv => by simp at hv⟩
    · exact ⟨by simp [failedSaves, saves, RunStatus.isFailed],
        fun v hv => by simp [failedSaves, saves, RunStatus.isFailed]⟩
  | cons step rest ih =>
    intro i context currentOutput clock
    simp only [runLoop]
    generalize hes :
      executeStep step
        { context with executionPath := context.executionPath ++ [i] }
        currentOutput clock = es
    have hse : saves es.2.2 = [] := by
      rw [← hes]
      exact executeStep_saves step _ currentOutput clock
    obtain ⟨result, ctx2, evs⟩ := es
    simp only at hse ⊢
    cases result with
    | failed e ts =>
      constructor
      · rw [failedSaves_append, failedSaves_of_saves_nil _ hse,
          failedSaves_save_cons]
        simp [RunStatus.isFailed, failedSaves_nil]
      · intro v hv
        simp at hv
    | success out ts =>
      obtain ⟨ihl, ihr⟩ := ih (i + 1)
        { ctx2 with
          stepResults :=
            setStepResult ctx2.stepResults step.id
              (StepResult.success out ts) }
        out (clock + 2)
      constructor
      · rw [failedSaves_append, failedSaves_append,
          failedSaves_of_saves_nil _ hse, failedSaves_save_cons]
        simpa [RunStatus.isFailed, failedSaves_nil] using ihl
      · intro v hv
        rw [failedSaves_append, failedSaves_append,
          failedSaves_of_saves_nil _ hse, failedSaves_save_cons]
        simpa [RunStatus.isFailed, failedSaves_nil] using ihr v hv
    | running ts =>
      obtain ⟨ihl, ihr⟩ := ih (i + 1)
        { ctx2 with
          stepResults :=
            setStepResult ctx2.stepResults step.id (StepResult.running ts) }
        currentOutput (clock + 2)
      constructor
      · rw [failedSaves_append, failedSaves_append,
          failedSaves_of_saves_nil _ hse, failedSaves_save_cons]
        simpa [RunStatus.isFailed, failedSaves_nil] using ihl
      · intro v hv
        rw [failedSaves_append, failedSaves_append,
          failedSaves_of_saves_nil _ hse, failedSaves_save_cons]
        simpa [RunStatus.isFailed, failedSaves_nil] using ihr v hv

theorem saves_last_of_append (s₀ s : WorkflowSnapshot) (l : List Event) :
    (saves (Event.save s₀ :: (l ++ [Event.save s]))).getLast? = some s := by
  have h : Event.save s₀ :: (l ++ [Event.save s]) =
      (Event.save s₀ :: l) ++ [Event.save s] := rfl
  rw [h, saves_append]
  rw [show saves [Event.save s] = [s] from rfl]
  exact List.getLast?_concat _

theorem c2_failed_run_persisted (wf : Workflow) (runId : String)
    (input : Value) (initialState : Option Value) (clock : Nat) (v : Value)
    (e : EngineError) (hparse : wf.inputSchema.parse input = .ok v)
    (herr : (execute wf runId input initialState clock).1 = .error e) :
    (∃ s, (saves (execute wf runId input initialState clock).2).getLast? =
        some s ∧
      s.status = RunStatus.failed ∧ s.error = some e.message ∧
      s.runId = runId) ∧
    ((failedSaves (execute wf runId input initialState clock).2).length = 1 ∨
     (failedSaves (execute wf runId input initialState clock).2).length =
       2) := by
  revert herr
  simp only [execute, hparse]
  split
  · intro herr
    simp at herr
  · rename_i e' houtcome
    intro herr
    simp only [Except.error.injEq] at herr
    subst herr
    constructor
    · exact ⟨_, saves_last_of_append _ _ _, rfl, rfl, rfl⟩
    · rw [failedSaves_save_cons]
      simp only [RunStatus.isFailed, Bool.false_eq_true, if_false]
      rw [failedSaves_append]
      have hone := (runLoop_failedSaves wf runId v wf.stepFlow 0
        { workflowId := wf.id
          runId := runId
          executionPath := []
          stepResults := []
          state := initialContextState wf initialState
          inputData := v } v (clock + 1)).1
      rcases Nat.le_one_iff_eq_zero_or_eq_one.mp hone with h0 | h1
      · left
        simp [List.length_append, failedSaves_save_cons, RunStatus.isFailed,
          failedSaves_nil, h0]
      · right
        simp [List.length_append, failedSaves_save_cons, RunStatus.isFailed,
          failedSaves_nil, h1]

theorem c2_witness :
    (∃ s, (saves (execute wfTwo "r1" (Value.num 1) none 0).2).getLast? =
        some s ∧
      s.status = RunStatus.failed ∧ s.error = some "boom" ∧
      s.runId = "r1") ∧
    ((failedSaves (execute wfTwo "r1" (Value.num 1) none 0).2).length = 1 ∨
     (failedSaves (execute wfTwo "r1" (Value.num 1) none 0).2).length = 2) :=
  c2_failed_run_persisted wfTwo "r1" (Value.num 1) none 0 (Value.num 1)
    (.error "boom") rfl rfl

theorem c2_counterexample :
    (execute wfTwo "r1" (Value.num 1) none 0).1 = .error (.error "boom") ∧
    (failedSaves (execute wfTwo "r1" (Value.num 1) none 0).2).length = 2 :=
  ⟨rfl, rfl⟩

theorem runLoop_cons_failed (wf : Workflow) (runId : String)
    (validatedInput : Value) (step : Step) (rest : List Step) (i : Nat)
    (context : ExecutionContext) (currentOutput : Value) (clock : Nat)
    (e : EngineError) (ts : Nat) (ctx2 : ExecutionContext)
    (evs : List Event)
    (hes : executeStep step
        { context with executionPath := context.executionPath ++ [i] }
        currentOutput clock = (.failed e ts, ctx2, evs)) :
    runLoop wf runId validatedInput (step :: rest) i context currentOutput
        clock =
      ⟨.error e,
       { ctx2 with
         stepResults :=
           setStepResult ctx2.stepResults step.id (.failed e ts) },
       clock + 2,
       evs ++
         [Event.save
           { runId := runId
             workflowId := wf.id
             status := RunStatus.failed
             executionPath := ctx2.executionPath
             stepResults :=
               setStepResult ctx2.stepResults step.id (.failed e ts)
             state := ctx2.state
             inputData := validatedInput
             error := some e.message
             timestamp := clock + 1 }]⟩ := by
  simp only [runLoop, hes]

theorem runLoop_cons_success (wf : Workflow) (runId : String)
    (validatedInput : Value) (step : Step) (rest : List Step) (i : Nat)
    (context : ExecutionContext) (currentOutput : Value) (clock : Nat)
    (out2 : Value) (ts : Nat) (ctx2 : ExecutionContext) (evs : List Event)
    (hes : executeStep step
        { context with executionPath := context.executionPath ++ [i] }
        currentOutput clock = (.success out2 ts, ctx2, evs)) :
    runLoop wf runId validatedInput (step :: rest) i context currentOutput
        clock =
      ⟨(runLoop wf runId validatedInput rest (i + 1)
          { ctx2 with
            stepResults :=
              setStepResult ctx2.stepResults step.id (.success out2 ts) }
          out2 (clock + 2)).outcome,
       (runLoop wf runId validatedInput rest (i + 1)
          { ctx2 with
            stepResults :=
              setStepResult ctx2.stepResults step.id (.success out2 ts) }
          out2 (clock + 2)).context,
       (runLoop wf runId validatedInput rest (i + 1)
          { ctx2 with
            stepResults :=
              setStepResult ctx2.stepResults step.id (.success out2 ts) }
          out2 (clock + 2)).clock,
       (evs ++
         [Event.save
           { runId := runId
             workflowId := wf.id
             status := RunStatus.running
             executionPath := ctx2.executionPath
             stepResults :=
               setStepResult ctx2.stepResults step.id (.success out2 ts)
             state := ctx2.state
             inputData := validatedInput
             timestamp := clock + 1 }]) ++
         (runLoop wf runId validatedInput rest (i + 1)
            { ctx2 with
              stepResults :=
                setStepResult ctx2.stepResults step.id (.success out2 ts) }
            out2 (clock + 2)).events⟩ := by
  simp only [runLoop, hes]

theorem runLoop_cons_running (wf : Workflow) (runId : String)
    (validatedInput : Value) (step : Step) (rest : List Step) (i : Nat)
    (context : ExecutionContext) (currentOutput : Value) (clock : Nat)
    (ts : Nat) (ctx2 : ExecutionContext) (evs : List Event)
    (hes : executeStep step
        { context with executionPath := context.executionPath ++ [i] }
        currentOutput clock = (.running ts, ctx2, evs)) :
    runLoop wf runId validatedInput (step :: rest) i context currentOutput
        clock =
      ⟨(runLoop wf runId validatedInput rest (i + 1)
          { ctx2 with
            stepResults :=
              setStepResult ctx2.stepResults step.id (.running ts) }
          currentOutput (clock + 2)).outcome,
       (runLoop wf runId validatedInput rest (i + 1)
          { ctx2 with
            stepResults :=
              setStepResult ctx2.stepResults step.id (.running ts) }
          currentOutput (clock + 2)).context,
       (runLoop wf runId validatedInput rest (i + 1)
          { ctx2 with
            stepResults :=
              setStepResult ctx2.stepResults step.id (.running ts) }
          currentOutput (clock + 2)).clock,
       (evs ++
         [Event.save
           { runId := runId
             workflowId := wf.id
             status := RunStatus.running
             executionPath := ctx2.executionPath
             stepResults :=
               setStepResult ctx2.stepResults step.id (.running ts)
             state := ctx2.state
             inputData := validatedInput
             timestamp := clock + 1 }]) ++
         (runLoop wf runId validatedInput rest (i + 1)
            { ctx2 with
              stepResults :=
                setStepResult ctx2.stepResults step.id (.running ts) }
            currentOutput (clock + 2)).events⟩ := by
  simp only [runLoop, hes]

theorem saves_block (evs : List Event) (hse : saves evs = [])
    (snap : WorkflowSnapshot) (l : List Event) :
    saves ((evs ++ [Event.save snap]) ++ l) = snap :: saves l := by
  simp [saves_append, hse, saves_save_cons]

theorem saves_block_nil (evs : List Event) (hse : saves evs = [])
    (snap : WorkflowSnapshot) :
    saves (evs ++ [Event.save snap]) = [snap] := by
  simp [saves_append, hse, saves_save_cons, saves_nil]

theorem snapshotStep_of_running (s t : WorkflowSnapshot)
    (h : s.status = RunStatus.running)
    (hlen : s.executionPath.length ≤ t.executionPath.length) :
    snapshotStep s t := by
  refine ⟨hlen, ?_⟩
  by_cases ht : t.status = RunStatus.running
  · exact Or.inl (h.trans ht.symm)
  · exact Or.inr ⟨h, ht⟩

theorem snapshotStep_to_failed (s t : WorkflowSnapshot)
    (hs : s.status ≠ RunStatus.success)
    (hlen : s.executionPath.length ≤ t.executionPath.length)
    (ht : t.status = RunStatus.failed) : snapshotStep s t := by
  refine ⟨hlen, ?_⟩
  cases hss : s.status with
  | running => exact Or.inr ⟨rfl, by simp [ht]⟩
  | success => exact absurd hss hs
  | failed => exact Or.inl ht.symm

/-- Invariants of the step loop's snapshot writes: every saved snapshot
carries the run's id and an execution path no shorter than the entry path
and no longer than the final path, consecutive saves satisfy
`snapshotStep`, and a loop that ends in a thrown error has saved no
`success` snapshot. -/
theorem runLoop_saves_spec (wf : Workflow) (runId : String)
    (validatedInput : Value) :
    ∀ (steps : List Step) (i : Nat) (context : ExecutionContext)
      (currentOutput : Value) (clock : Nat),
      context.executionPath.length ≤
        (runLoop wf runId validatedInput steps i context currentOutput
          clock).context.executionPath.length ∧
      (∀ s ∈ saves
          (runLoop wf runId validatedInput steps i context currentOutput
            clock).events,
        context.executionPath.length ≤ s.executionPath.length ∧
        s.executionPath.length ≤
          (runLoop wf runId validatedInput steps i context currentOutput
            clock).context.executionPath.length ∧
        s.runId = runId) ∧
      List.Chain' snapshotStep
        (saves (runLoop wf runId validatedInput steps i context
          currentOutput clock).events) ∧
      (∀ e, (runLoop wf runId validatedInput steps i context currentOutput
          clock).outcome = .error e →
        ∀ s ∈ saves (runLoop wf runId validatedInput steps i context
          currentOutput clock).events, s.status ≠ RunStatus.success) := by
  intro steps
  induction steps with
  | nil =>
    intro i context currentOutput clock
    simp only [runLoop]
    split
    · exact ⟨Nat.le_refl _, by simp [saves], by simp [saves],
        fun e he s hs => by simp [saves] at hs⟩
    · refine ⟨Nat.le_refl _, ?_, by simp [saves], ?_⟩
      · intro s hs
        rw [saves_save_cons, saves_nil] at hs
        rcases List.mem_singleton.mp hs with rfl
        exact ⟨Nat.le_refl _, Nat.le_refl _, rfl⟩
      · intro e he s hs
        simp at he
  | cons step rest ih =>
    intro i context currentOutput clock
    rcases hes : executeStep step
        { context with executionPath := context.executionPath ++ [i] }
        currentOutput clock with ⟨result, ctx2, evs⟩
    have hse : saves evs = [] := by
      have h := executeStep_saves step
        { context with executionPath := context.executionPath ++ [i] }
        currentOutput clock
      rw [hes] at h
      exact h
    obtain ⟨st, hctx⟩ : ∃ st, ctx2 =
        { context with
          executionPath := context.executionPath ++ [i], state := st } := by
      have h := executeStep_context step
        { context with executionPath := context.executionPath ++ [i] }
        currentOutput clock
      rw [hes] at h
      exact h
    subst hctx
    have hlen1 : context.executionPath.length ≤
        (context.executionPath ++ [i]).length := by simp
    cases result with
    | failed e ts =>
      rw [runLoop_cons_failed wf runId validatedInput step rest i context
        currentOutput clock e ts _ evs hes]
      refine ⟨hlen1, ?_, ?_, ?_⟩
      · intro s hs
        rw [saves_block_nil evs hse] at hs
        rcases List.mem_singleton.mp hs with rfl
        exact ⟨hlen1, Nat.le_refl _, rfl⟩
      · rw [saves_block_nil evs hse]
        exact List.chain'_singleton _
      · intro e' he' s hs
        rw [saves_block_nil evs hse] at hs
        rcases List.mem_singleton.mp hs with rfl
        simp
    | success out2 ts =>
      rw [runLoop_cons_success wf runId validatedInput step rest i context
        currentOutput clock out2 ts _ evs hes]
      obtain ⟨ihA, ihB, ihC, ihD⟩ := ih (i + 1)
        { context with
          executionPath := context.executionPath ++ [i]
          state := st
          stepResults :=
            setStepResult context.stepResults step.id
              (StepResult.success out2 ts) }
        out2 (clock + 2)
      refine ⟨le_trans hlen1 ihA, ?_, ?_, ?_⟩
      · intro s hs
        rw [saves_block evs hse] at hs
        rcases List.mem_cons.mp hs with rfl | hs
        · exact ⟨hlen1, ihA, rfl⟩
        · obtain ⟨hB1, hB2, hB3⟩ := ihB s hs
          exact ⟨le_trans hlen1 hB1, hB2, hB3⟩
      · rw [saves_block evs hse]
        rw [List.chain'_cons']
        refine ⟨?_, ihC⟩
        intro y hy
        refine snapshotStep_of_running _ y rfl ?_
        exact (ihB y (List.mem_of_mem_head? hy)).1
      · intro e' he' s hs
        rw [saves_block evs hse] at hs
        rcases List.mem_cons.mp hs with rfl | hs
        · simp
        · exact ihD e' he' s hs
    | running ts =>
      rw [runLoop_cons_running wf runId validatedInput step rest i context
        currentOutput clock ts _ evs hes]
      obtain ⟨ihA, ihB, ihC, ihD⟩ := ih (i + 1)
        { context with
          executionPath := context.executionPath ++ [i]
          state := st
          stepResults :=
            setStepResult context.stepResults step.id
              (StepResult.running ts) }
        currentOutput (clock + 2)
      refine ⟨le_trans hlen1 ihA, ?_, ?_, ?_⟩
      · intro s hs
        rw [saves_block evs hse] at hs
        rcases List.mem_cons.mp hs with rfl | hs
        · exact ⟨hlen1, ihA, rfl⟩
        · obtain ⟨hB1, hB2, hB3⟩ := ihB s hs
          exact ⟨le_trans hlen1 hB1, hB2, hB3⟩
      · rw [saves_block evs hse]
        rw [List.chain'_cons']
        refine ⟨?_, ihC⟩
        intro y hy
        refine snapshotStep_of_running _ y rfl ?_
        exact (ihB y (List.mem_of_mem_head? hy)).1
      · intro e' he' s hs
        rw [saves_block evs hse] at hs
        rcases List.mem_cons.mp hs with rfl | hs
        · simp
        · exact ihD e' he' s hs

theorem saves_singleton (s : WorkflowSnapshot) :
    saves [Event.save s] = [s] := rfl

/-- C4: within one `execute` call (the storage writes all succeed in the
model), the snapshots written for the run id all carry that run id, their
execution-path lengths never decrease from one write to the next, and the
status never changes except from `running` to a terminal `success` or
`failed` — never from a terminal status back to `running` and never
between `success` and `failed`. -/
theorem c4_snapshot_monotonicity (wf : Workflow) (runId : String)
    (input : Value) (initialState : Option Value) (clock : Nat) :
    (∀ s ∈ saves (execute wf runId input initialState clock).2,
      s.runId = runId) ∧
    List.Chain' snapshotStep
      (saves (execute wf runId input initialState clock).2) := by
  cases hparse : wf.inputSchema.parse input with
  | error e => simp [execute, hparse, saves]
  | ok v =>
    simp only [execute, hparse]
    obtain ⟨hA, hB, hC, hD⟩ := runLoop_saves_spec wf runId v wf.stepFlow 0
      { workflowId := wf.id
        runId := runId
        executionPath := []
        stepResults := []
        state := initialContextState wf initialState
        inputData := v } v (clock + 1)
    split
    · constructor
      · intro s hs
        rw [saves_save_cons] at hs
        rcases List.mem_cons.mp hs with rfl | hs
        · rfl
        · exact (hB s hs).2.2
      · rw [saves_save_cons, List.chain'_cons']
        refine ⟨?_, hC⟩
        intro y hy
        exact snapshotStep_of_running _ y rfl (Nat.zero_le _)
    · rename_i e houtcome
      constructor
      · intro s hs
        rw [saves_save_cons] at hs
        rcases List.mem_cons.mp hs with rfl | hs
        · rfl
        · rw [saves_append, saves_singleton] at hs
          rcases List.mem_append.mp hs with hs | hs
          · exact (hB s hs).2.2
          · rcases List.mem_singleton.mp hs with rfl
            rfl
      · rw [saves_save_cons, List.chain'_cons']
        constructor
        · intro y hy
          exact snapshotStep_of_running _ y rfl (Nat.zero_le _)
        · rw [saves_append, saves_singleton, List.chain'_append]
          refine ⟨hC, List.chain'_singleton _, ?_⟩
          intro x hx y hy
          have hxmem := List.mem_of_mem_getLast? hx
          rw [List.head?_cons] at hy
          rcases Option.mem_some_iff.mp hy with rfl
          exact snapshotStep_to_failed x _ (hD e houtcome x hxmem)
            ((hB x hxmem).2.1) rfl


/-- Witness for C4 at a concrete failing run. -/
theorem c4_witness :
    (∀ s ∈ saves (execute wfTwo "r1" (Value.num 1) none 0).2,
      s.runId = "r1") ∧
    List.Chain' snapshotStep
      (saves (execute wfTwo "r1" (Value.num 1) none 0).2) :=
  c4_snapshot_monotonicity wfTwo "r1" (Value.num 1) none 0

theorem executeStep_eq_invalid (step : Step) (context : ExecutionContext)
    (input : Value) (ts : Nat) (e : EngineError)
    (h : step.inputSchema.parse input = .error e) :
    executeStep step context input ts = (.failed e ts, context, []) := by
  simp only [executeStep, h]

theorem executeStep_eq_throw (step : Step) (context : ExecutionContext)
    (input : Value) (ts : Nat) (v : Value) (e : EngineError)
    (hp : step.inputSchema.parse input = .ok v)
    (ho : (step.execute
        { inputData := v
          state := context.state
          stepResults := context.stepResults
          initData := context.inputData
          runId := context.runId
          workflowId := context.workflowId }).outcome = .error e) :
    executeStep step context input ts =
      (.failed e ts,
       { context with
         state :=
           (step.execute
             { inputData := v
               state := context.state
               stepResults := context.stepResults
               initData := context.inputData
               runId := context.runId
               workflowId := context.workflowId }).finalState },
       [Event.invoke step.id
         { inputData := v
           state := context.state
           stepResults := context.stepResults
           initData := context.inputData
           runId := context.runId
           workflowId := context.workflowId }]) := by
  simp only [executeStep, hp, ho]

theorem executeStep_eq_outfail (step : Step) (context : ExecutionContext)
    (input : Value) (ts : Nat) (v out2 : Value) (e : EngineError)
    (hp : step.inputSchema.parse input = .ok v)
    (ho : (step.execute
        { inputData := v
          state := context.state
          stepResults := context.stepResults
          initData := context.inputData
          runId := context.runId
          workflowId := context.workflowId }).outcome = .ok out2)
    (hof : step.outputSchema.parse out2 = .error e) :
    executeStep step context input ts =
      (.failed e ts,
       { context with
         state :=
           (step.execute
             { inputData := v
               state := context.state
               stepResults := context.stepResults
               initData := context.inputData
               runId := context.runId
               workflowId := context.workflowId }).finalState },
       [Event.invoke step.id
         { inputData := v
           state := context.state
           stepResults := context.stepResults
           initData := context.inputData
           runId := context.runId
           workflowId := context.workflowId }]) := by
  simp only [executeStep, hp, ho, hof]

theorem executeStep_eq_ok (step : Step) (context : ExecutionContext)
    (input : Value) (ts : Nat) (v out2 vout : Value)
    (hp : step.inputSchema.parse input = .ok v)
    (ho : (step.execute
        { inputData := v
          state := context.state
          stepResults := context.stepResults
          initData := context.inputData
          runId := context.runId
          workflowId := context.workflowId }).outcome = .ok out2)
    (hof : step.outputSchema.parse out2 = .ok vout) :
    executeStep step context input ts =
      (.success vout ts,
       { context with
         state :=
           (step.execute
             { inputData := v
               state := context.state
               stepResults := context.stepResults
               initData := context.inputData
               runId := context.runId
               workflowId := context.workflowId }).finalState },
       [Event.invoke step.id
         { inputData := v
           state := context.state
           stepResults := context.stepResults
           initData := context.inputData
           runId := context.runId
           workflowId := context.workflowId }]) := by
  simp only [executeStep, hp, ho, hof]

theorem invokes_block (evs : List Event) (snap : WorkflowSnapshot)
    (l : List Event) :
    invokes ((evs ++ [Event.save snap]) ++ l) = invokes evs ++ invokes l := by
  simp [invokes_append, invokes]

/-- The first invocation of the loop observes the entry context's state. -/
theorem runLoop_invokes_head (wf : Workflow) (runId : String)
    (validatedInput : Value) (step : Step) (rest : List Step) (i : Nat)
    (context : ExecutionContext) (currentOutput : Value) (clock : Nat)
    (p : String × StepExecutionContext)
    (h : (invokes (runLoop wf runId validatedInput (step :: rest) i context
        currentOutput clock).events)[0]? = some p) :
    p.2.state = context.state := by
  cases hp : step.inputSchema.parse currentOutput with
  | error e =>
    rw [runLoop_cons_failed wf runId validatedInput step rest i context
      currentOutput clock e clock _ _
      (executeStep_eq_invalid step _ currentOutput clock e hp)] at h
    simp only [List.cons_append, List.nil_append, invokes_invoke_cons,
      invokes_save_cons, invokes_nil, List.getElem?_cons_zero,
      List.getElem?_cons_succ, List.getElem?_nil, Option.some.injEq] at h
    exact Option.noConfusion h
  | ok v =>
    cases ho : (step.execute
        { inputData := v
          state := context.state
          stepResults := context.stepResults
          initData := context.inputData
          runId := context.runId
          workflowId := context.workflowId }).outcome with
    | error e =>
      rw [runLoop_cons_failed wf runId validatedInput step rest i context
        currentOutput clock e clock _ _
        (executeStep_eq_throw step _ currentOutput clock v e hp ho)] at h
      simp only [List.cons_append, List.nil_append, invokes_invoke_cons,
        invokes_save_cons, invokes_nil, List.getElem?_cons_zero,
        Option.some.injEq] at h
      subst h
      rfl
    | ok out2 =>
      cases hof : step.outputSchema.parse out2 with
      | error e =>
        rw [runLoop_cons_failed wf runId validatedInput step rest i context
          currentOutput clock e clock _ _
          (executeStep_eq_outfail step _ currentOutput clock v out2 e hp ho
            hof)] at h
        simp only [List.cons_append, List.nil_append, invokes_invoke_cons,
          invokes_save_cons, invokes_nil, List.getElem?_cons_zero,
          Option.some.injEq] at h
        subst h
        rfl
      | ok vout =>
        rw [runLoop_cons_success wf runId validatedInput step rest i context
          currentOutput clock vout clock _ _
          (executeStep_eq_ok step _ currentOutput clock v out2 vout hp ho
            hof)] at h
        simp only [List.cons_append, List.nil_append, invokes_invoke_cons,
          invokes_save_cons, invokes_nil, List.getElem?_cons_zero,
          Option.some.injEq] at h
        subst h
        rfl

/-- Shifting one step into the loop: an invocation at position `n + 1` is
produced by the tail loop, entered with a context whose state is the final
state left behind by this step's execution function, which itself observed
this loop entry's state. -/
theorem runLoop_invokes_shift (wf : Workflow) (runId : String)
    (validatedInput : Value) (step : Step) (rest : List Step) (i : Nat)
    (context : ExecutionContext) (currentOutput : Value) (clock : Nat)
    (n : Nat) (p : String × StepExecutionContext)
    (h : (invokes (runLoop wf runId validatedInput (step :: rest) i context
        currentOutput clock).events)[n + 1]? = some p) :
    ∃ c0 ctx2 out2 clk2,
      c0.state = context.state ∧
      ctx2.state = (step.execute c0).finalState ∧
      (invokes (runLoop wf runId validatedInput rest (i + 1) ctx2 out2
          clk2).events)[n]? = some p := by
  cases hp : step.inputSchema.parse currentOutput with
  | error e =>
    rw [runLoop_cons_failed wf runId validatedInput step rest i context
      currentOutput clock e clock _ _
      (executeStep_eq_invalid step _ currentOutput clock e hp)] at h
    simp only [List.cons_append, List.nil_append, invokes_invoke_cons,
      invokes_save_cons, invokes_nil, List.getElem?_cons_succ,
      List.getElem?_nil] at h
    exact Option.noConfusion h
  | ok v =>
    cases ho : (step.execute
        { inputData := v
          state := context.state
          stepResults := context.stepResults
          initData := context.inputData
          runId := context.runId
          workflowId := context.workflowId }).outcome with
    | error e =>
      rw [runLoop_cons_failed wf runId validatedInput step rest i context
        currentOutput clock e clock _ _
        (executeStep_eq_throw step _ currentOutput clock v e hp ho)] at h
      simp only [List.cons_append, List.nil_append, invokes_invoke_cons,
        invokes_save_cons, invokes_nil, List.getElem?_cons_succ,
        List.getElem?_nil] at h
      exact Option.noConfusion h
    | ok out2 =>
      cases hof : step.outputSchema.parse out2 with
      | error e =>
        rw [runLoop_cons_failed wf runId validatedInput step rest i context
          currentOutput clock e clock _ _
          (executeStep_eq_outfail step _ currentOutput clock v out2 e hp ho
            hof)] at h
        simp only [List.cons_append, List.nil_append, invokes_invoke_cons,
          invokes_save_cons, invokes_nil, List.getElem?_cons_succ,
          List.getElem?_nil] at h
        exact Option.noConfusion h
      | ok vout =>
        rw [runLoop_cons_success wf runId validatedInput step rest i context
          currentOutput clock vout clock _ _
          (executeStep_eq_ok step _ currentOutput clock v out2 vout hp ho
            hof)] at h
        simp only [List.cons_append, List.nil_append, invokes_invoke_cons,
          invokes_save_cons, invokes_nil, List.getElem?_cons_succ] at h
        exact ⟨{ inputData := v
                 state := context.state
                 stepResults := context.stepResults
                 initData := context.inputData
                 runId := context.runId
                 workflowId := context.workflowId },
               { workflowId := context.workflowId
                 runId := context.runId
                 executionPath := context.executionPath ++ [i]
                 stepResults :=
                   setStepResult context.stepResults step.id
                     (.success vout clock)
                 state :=
                   (step.execute
                     { inputData := v
                       state := context.state
                       stepResults := context.stepResults
                       initData := context.inputData
                       runId := context.runId
                       workflowId := context.workflowId }).finalState
                 inputData := context.inputData },
               vout, clock + 2, rfl, rfl, h⟩

theorem runLoop_invokes_skip (wf : Workflow) (runId : String)
    (validatedInput : Value) :
    ∀ (pre L : List Step) (i : Nat) (ctx : ExecutionContext) (out : Value)
      (clk : Nat) (n : Nat) (p : String × StepExecutionContext),
      (invokes (runLoop wf runId validatedInput (pre ++ L) i ctx out
          clk).events)[pre.length + n]? = some p →
      ∃ i2 ctx2 out2 clk2,
        (invokes (runLoop wf runId validatedInput L i2 ctx2 out2
            clk2).events)[n]? = some p := by
  intro pre
  induction pre with
  | nil =>
    intro L i ctx out clk n p h
    simp only [List.length_nil, Nat.zero_add, List.nil_append] at h
    exact ⟨i, ctx, out, clk, h⟩
  | cons s pre2 ih =>
    intro L i ctx out clk n p h
    have harith : (s :: pre2).length + n = (pre2.length + n) + 1 := by
      simp [List.length_cons]
      omega
    rw [harith] at h
    obtain ⟨c0, ctx2, out2, clk2, -, -, h2⟩ :=
      runLoop_invokes_shift wf runId validatedInput s (pre2 ++ L) i ctx out
        clk (pre2.length + n) p h
    exact ih L (i + 1) ctx2 out2 clk2 n p h2

theorem runLoop_invokes_mid (wf : Workflow) (runId : String)
    (validatedInput : Value) (stepJ : Step) (rest₂ : List Step) (v : Value) :
    ∀ (mid : List Step),
      (∀ s ∈ mid, ∀ c, (s.execute c).finalState = c.state) →
      ∀ (i : Nat) (ctx : ExecutionContext) (out : Value) (clk : Nat)
        (p : String × StepExecutionContext),
        ctx.state = some v →
        (invokes (runLoop wf runId validatedInput (mid ++ stepJ :: rest₂) i
            ctx out clk).events)[mid.length]? = some p →
        p.2.state = some v := by
  intro mid
  induction mid with
  | nil =>
    intro hmid i ctx out clk p hstate h
    have hhead := runLoop_invokes_head wf runId validatedInput stepJ rest₂ i
      ctx out clk p h
    rw [hhead, hstate]
  | cons s mid2 ih =>
    intro hmid i ctx out clk p hstate h
    obtain ⟨c0, ctx2, out2, clk2, hc0, hctx2, h2⟩ :=
      runLoop_invokes_shift wf runId validatedInput s
        (mid2 ++ stepJ :: rest₂) i ctx out clk mid2.length p h
    have hstate2 : ctx2.state = some v := by
      rw [hctx2, hmid s (by simp) c0, hc0, hstate]
    exact ih (fun s2 hs2 => hmid s2 (by simp [hs2])) (i + 1) ctx2 out2 clk2
      p hstate2 h2

theorem execute_invokes (wf : Workflow) (runId : String) (input : Value)
    (initialState : Option Value) (clock : Nat) (v : Value)
    (hparse : wf.inputSchema.parse input = .ok v) :
    invokes (execute wf runId input initialState clock).2 =
      invokes (runLoop wf runId v wf.stepFlow 0
        { workflowId := wf.id
          runId := runId
          executionPath := []
          stepResults := []
          state := initialContextState wf initialState
          inputData := v } v (clock + 1)).events := by
  simp only [execute, hparse]
  split
  · rw [invokes_save_cons]
  · rw [invokes_save_cons, invokes_append]
    simp [invokes]

/-- C6: within one run, when the execution function of step k always sets
the workflow state to `v` and the steps strictly between k and j never
call `setState`, the step-execution context observed by step j (the
invocation at position j of the run's invocation sequence) carries
`state = v`: cross-step `setState` updates are visible to every later
step until another `setState` replaces them. -/
theorem c6_state_propagation (wf : Workflow) (runId : String) (input : Value)
    (initialState : Option Value) (clock : Nat)
    (pre mid rest₂ : List Step) (stepK stepJ : Step) (v : Value)
    (idc : String) (cJ : StepExecutionContext)
    (hflow : wf.stepFlow = pre ++ stepK :: (mid ++ stepJ :: rest₂))
    (hK : ∀ c, (stepK.execute c).finalState = some v)
    (hmid : ∀ s ∈ mid, ∀ c, (s.execute c).finalState = c.state)
    (hj : (invokes (execute wf runId input initialState
        clock).2)[pre.length + (mid.length + 1)]? = some (idc, cJ)) :
    cJ.state = some v := by
  cases hparse : wf.inputSchema.parse input with
  | error e =>
    simp only [execute, hparse, invokes_nil, List.getElem?_nil] at hj
    exact Option.noConfusion hj
  | ok w =>
    rw [execute_invokes wf runId input initialState clock w hparse,
      hflow] at hj
    obtain ⟨i2, ctx2, out2, clk2, h2⟩ :=
      runLoop_invokes_skip wf runId w pre
        (stepK :: (mid ++ stepJ :: rest₂)) 0
        { workflowId := wf.id
          runId := runId
          executionPath := []
          stepResults := []
          state := initialContextState wf initialState
          inputData := w } w (clock + 1) (mid.length + 1) (idc, cJ) hj
    obtain ⟨c0, ctx3, out3, clk3, hc0, hctx3, h3⟩ :=
      runLoop_invokes_shift wf runId w stepK (mid ++ stepJ :: rest₂) i2
        ctx2 out2 clk2 mid.length (idc, cJ) h2
    have hstate3 : ctx3.state = some v := by
      rw [hctx3, hK c0]
    exact runLoop_invokes_mid wf runId w stepJ rest₂ v mid hmid (i2 + 1)
      ctx3 out3 clk3 (idc, cJ) hstate3 h3

/-- Witness for C6: in `wf-state`, step 0 sets the state to 7 and step 1
observes 7 in its step-execution context. -/
theorem c6_witness :
    ∃ cJ, (invokes (execute wfState "r6" (Value.num 0) none
        0).2)[([] : List Step).length + (([] : List Step).length + 1)]? =
      some ("read-state", cJ) ∧
    cJ.state = some (Value.num 7) := by
  refine ⟨{ inputData := Value.num 0
            state := some (Value.num 7)
            stepResults := [("set-state", .success (Value.num 0) 1)]
            initData := Value.num 0
            runId := "r6"
            workflowId := "wf-state" }, rfl, ?_⟩
  exact c6_state_propagation wfState "r6" (Value.num 0) none 0 [] [] []
    setStateStep readStateStep (Value.num 7) "read-state" _ rfl
    (fun c => rfl) (fun s hs => absurd hs (List.not_mem_nil s)) rfl

theorem setStepResult_nil (id : String) (r : StepResult) :
    setStepResult [] id r = [(id, r)] := rfl

theorem setStepResult_cons (k : String) (v : StepResult)
    (rest : StepResults) (id : String) (r : StepResult) :
    setStepResult ((k, v) :: rest) id r =
      if k = id then (k, r) :: rest
      else (k, v) :: setStepResult rest id r := rfl

theorem lookup_cons (k : String) (v : StepResult) (rest : StepResults)
    (id : String) :
    lookupStepResult ((k, v) :: rest) id =
      if k = id then some v else lookupStepResult rest id := by
  by_cases h : k = id <;> simp [lookupStepResult, List.find?, h]

theorem lookupStepResult_nil (id : String) :
    lookupStepResult [] id = none := rfl

theorem lookup_setStepResult_self (m : StepResults) (id : String)
    (r : StepResult) :
    lookupStepResult (setStepResult m id r) id = some r := by
  induction m with
  | nil =>
    rw [setStepResult_nil, lookup_cons, if_pos rfl]
  | cons p rest ih =>
    obtain ⟨k, v⟩ := p
    rw [setStepResult_cons]
    by_cases h : k = id
    · rw [if_pos h, lookup_cons, if_pos h]
    · rw [if_neg h, lookup_cons, if_neg h]
      exact ih

theorem lookup_setStepResult_ne (m : StepResults) (id id2 : String)
    (r : StepResult) (h : id2 ≠ id) :
    lookupStepResult (setStepResult m id r) id2 =
      lookupStepResult m id2 := by
  induction m with
  | nil =>
    rw [setStepResult_nil, lookup_cons, if_neg (fun hc => h hc.symm)]
  | cons p rest ih =>
    obtain ⟨k, v⟩ := p
    rw [setStepResult_cons]
    by_cases hk : k = id
    · have hne : ¬ k = id2 := fun hc => h (hc ▸ hk)
      rw [if_pos hk, lookup_cons, lookup_cons, if_neg hne, if_neg hne]
    · rw [if_neg hk, lookup_cons, lookup_cons]
      by_cases hc : k = id2
      · rw [if_pos hc, if_pos hc]
      · rw [if_neg hc, if_neg hc]
        exact ih

theorem mem_of_getElem_some {α : Type} {l : List α} {n : Nat} {a : α}
    (h : l[n]? = some a) : a ∈ l := by
  obtain ⟨hlt, rfl⟩ := List.getElem?_eq_some.mp h
  exact List.getElem_mem hlt

theorem executeStep_events_sub (step : Step) (context : ExecutionContext)
    (input : Value) (ts : Nat) :
    ∀ ev ∈ (executeStep step context input ts).2.2,
      ∃ c0, ev = Event.invoke step.id c0 := by
  simp only [executeStep]
  split
  · intro ev hev
    exact absurd hev (List.not_mem_nil ev)
  · split
    · intro ev hev
      rcases List.mem_singleton.mp hev with rfl
      exact ⟨_, rfl⟩
    · split <;>
        (intro ev hev
         rcases List.mem_singleton.mp hev with rfl
         exact ⟨_, rfl⟩)

/-- The step loop never touches recorded results for ids outside the
remaining step list. -/
theorem runLoop_preserves_other_ids (wf : Workflow) (runId : String)
    (validatedInput : Value) :
    ∀ (L : List Step) (i : Nat) (context : ExecutionContext)
      (currentOutput : Value) (clock : Nat) (id : String),
      id ∉ L.map Step.id →
      lookupStepResult
        (runLoop wf runId validatedInput L i context currentOutput
          clock).context.stepResults id =
        lookupStepResult context.stepResults id := by
  intro L
  induction L with
  | nil =>
    intro i context currentOutput clock id hid
    simp only [runLoop]
    split <;> rfl
  | cons step rest ih =>
    intro i context currentOutput clock id hid
    have hidne : id ≠ step.id := by
      intro hc
      exact hid (by simp [hc])
    have hidrest : id ∉ rest.map Step.id := by
      intro hc
      exact hid (by simp [hc])
    rcases hes : executeStep step
        { context with executionPath := context.executionPath ++ [i] }
        currentOutput clock with ⟨result, ctx2, evs⟩
    obtain ⟨st, rfl⟩ : ∃ st, ctx2 =
        { context with
          executionPath := context.executionPath ++ [i], state := st } := by
      have h := executeStep_context step
        { context with executionPath := context.executionPath ++ [i] }
        currentOutput clock
      rw [hes] at h
      exact h
    cases result with
    | failed e ts =>
      rw [runLoop_cons_failed wf runId validatedInput step rest i context
        currentOutput clock e ts _ _ hes]
      exact lookup_setStepResult_ne _ _ _ _ hidne
    | success out2 ts =>
      rw [runLoop_cons_success wf runId validatedInput step rest i context
        currentOutput clock out2 ts _ _ hes]
      rw [ih (i + 1) _ out2 (clock + 2) id hidrest]
      exact lookup_setStepResult_ne _ _ _ _ hidne
    | running ts =>
      rw [runLoop_cons_running wf runId validatedInput step rest i context
        currentOutput clock ts _ _ hes]
      rw [ih (i + 1) _ currentOutput (clock + 2) id hidrest]
      exact lookup_setStepResult_ne _ _ _ _ hidne

theorem runLoop_cons_failed_parts (wf : Workflow) (runId : String)
    (validatedInput : Value) (step : Step) (rest : List Step) (i : Nat)
    (context : ExecutionContext) (currentOutput : Value) (clock : Nat)
    (e : EngineError) (ts : Nat) (ctx2 : ExecutionContext)
    (evs : List Event)
    (hes : executeStep step
        { context with executionPath := context.executionPath ++ [i] }
        currentOutput clock = (.failed e ts, ctx2, evs)) :
    (runLoop wf runId validatedInput (step :: rest) i context currentOutput
        clock).outcome = .error e ∧
    (runLoop wf runId validatedInput (step :: rest) i context currentOutput
        clock).context =
      { ctx2 with
        stepResults := setStepResult ctx2.stepResults step.id
          (.failed e ts) } ∧
    (runLoop wf runId validatedInput (step :: rest) i context currentOutput
        clock).events =
      evs ++
        [Event.save
          { runId := runId
            workflowId := wf.id
            status := RunStatus.failed
            executionPath := ctx2.executionPath
            stepResults :=
              setStepResult ctx2.stepResults step.id (.failed e ts)
            state := ctx2.state
            inputData := validatedInput
            error := some e.message
            timestamp := clock + 1 }] := by
  rw [runLoop_cons_failed wf runId validatedInput step rest i context
    currentOutput clock e ts ctx2 evs hes]
  exact ⟨rfl, rfl, rfl⟩

theorem runLoop_cons_success_parts (wf : Workflow) (runId : String)
    (validatedInput : Value) (step : Step) (rest : List Step) (i : Nat)
    (context : ExecutionContext) (currentOutput : Value) (clock : Nat)
    (out2 : Value) (ts : Nat) (ctx2 : ExecutionContext) (evs : List Event)
    (hes : executeStep step
        { context with executionPath := context.executionPath ++ [i] }
        currentOutput clock = (.success out2 ts, ctx2, evs)) :
    (runLoop wf runId validatedInput (step :: rest) i context currentOutput
        clock).outcome =
      (runLoop wf runId validatedInput rest (i + 1)
        { ctx2 with
          stepResults :=
            setStepResult ctx2.stepResults step.id (.success out2 ts) }
        out2 (clock + 2)).outcome ∧
    (runLoop wf runId validatedInput (step :: rest) i context currentOutput
        clock).context =
      (runLoop wf runId validatedInput rest (i + 1)
        { ctx2 with
          stepResults :=
            setStepResult ctx2.stepResults step.id (.success out2 ts) }
        out2 (clock + 2)).context ∧
    (runLoop wf runId validatedInput (step :: rest) i context currentOutput
        clock).events =
      (evs ++
        [Event.save
          { runId := runId
            workflowId := wf.id
            status := RunStatus.running
            executionPath := ctx2.executionPath
            stepResults :=
              setStepResult ctx2.stepResults step.id (.success out2 ts)
            state := ctx2.state
            inputData := validatedInput
            timestamp := clock + 1 }]) ++
        (runLoop wf runId validatedInput rest (i + 1)
          { ctx2 with
            stepResults :=
              setStepResult ctx2.stepResults step.id (.success out2 ts) }
          out2 (clock + 2)).events := by
  rw [runLoop_cons_success wf runId validatedInput step rest i context
    currentOutput clock out2 ts ctx2 evs hes]
  exact ⟨rfl, rfl, rfl⟩

theorem runLoop_cons_running_parts (wf : Workflow) (runId : String)
    (validatedInput : Value) (step : Step) (rest : List Step) (i : Nat)
    (context : ExecutionContext) (currentOutput : Value) (clock : Nat)
    (ts : Nat) (ctx2 : ExecutionContext) (evs : List Event)
    (hes : executeStep step
        { context with executionPath := context.executionPath ++ [i] }
        currentOutput clock = (.running ts, ctx2, evs)) :
    (runLoop wf runId validatedInput (step :: rest) i context currentOutput
        clock).outcome =
      (runLoop wf runId validatedInput rest (i + 1)
        { ctx2 with
          stepResults :=
            setStepResult ctx2.stepResults step.id (.running ts) }
        currentOutput (clock + 2)).outcome ∧
    (runLoop wf runId validatedInput (step :: rest) i context currentOutput
        clock).context =
      (runLoop wf runId validatedInput rest (i + 1)
        { ctx2 with
          stepResults :=
            setStepResult ctx2.stepResults step.id (.running ts) }
        currentOutput (clock + 2)).context ∧
    (runLoop wf runId validatedInput (step :: rest) i context currentOutput
        clock).events =
      (evs ++
        [Event.save
          { runId := runId
            workflowId := wf.id
            status := RunStatus.running
            executionPath := ctx2.executionPath
            stepResults :=
              setStepResult ctx2.stepResults step.id (.running ts)
            state := ctx2.state
            inputData := validatedInput
            timestamp := clock + 1 }]) ++
        (runLoop wf runId validatedInput rest (i + 1)
          { ctx2 with
            stepResults :=
              setStepResult ctx2.stepResults step.id (.running ts) }
          currentOutput (clock + 2)).events := by
  rw [runLoop_cons_running wf runId validatedInput step rest i context
    currentOutput clock ts ctx2 evs hes]
  exact ⟨rfl, rfl, rfl⟩

theorem getLast?_cons_of_getLast? {α : Type} (x a : α) (l : List α)
    (h : l.getLast? = some a) : (x :: l).getLast? = some a := by
  cases l with
  | nil => exact Option.noConfusion h
  | cons y l2 =>
    rw [List.getLast?_cons_cons]
    exact h

/-- When the try block succeeds, its last snapshot write is the `success`
snapshot built from the final context and carrying the validated result. -/
theorem runLoop_ok_last_save (wf : Workflow) (runId : String)
    (validatedInput : Value) :
    ∀ (L : List Step) (i : Nat) (context : ExecutionContext)
      (currentOutput : Value) (clock : Nat) (v : Value),
      (runLoop wf runId validatedInput L i context currentOutput
          clock).outcome = .ok v →
      ∃ cl, (saves (runLoop wf runId validatedInput L i context
          currentOutput clock).events).getLast? =
        some
          { runId := runId
            workflowId := wf.id
            status := RunStatus.success
            executionPath := (runLoop wf runId validatedInput L i context
              currentOutput clock).context.executionPath
            stepResults := (runLoop wf runId validatedInput L i context
              currentOutput clock).context.stepResults
            state := (runLoop wf runId validatedInput L i context
              currentOutput clock).context.state
            inputData := validatedInput
            result := some v
            timestamp := cl } := by
  intro L
  induction L with
  | nil =>
    intro i context currentOutput clock v hok
    revert hok
    simp only [runLoop]
    split
    · intro hok
      exact Except.noConfusion hok
    · intro hok
      obtain rfl := Except.ok.inj hok
      exact ⟨clock, rfl⟩
  | cons step rest ih =>
    intro i context currentOutput clock v hok
    rcases hes : executeStep step
        { context with executionPath := context.executionPath ++ [i] }
        currentOutput clock with ⟨result, ctx2, evs⟩
    have hse : saves evs = [] := by
      have h := executeStep_saves step
        { context with executionPath := context.executionPath ++ [i] }
        currentOutput clock
      rw [hes] at h
      exact h
    cases result with
    | failed e ts =>
      obtain ⟨po, pc, pe⟩ := runLoop_cons_failed_parts wf runId
        validatedInput step rest i context currentOutput clock e ts _ _ hes
      rw [po] at hok
      exact Except.noConfusion hok
    | success out2 ts =>
      obtain ⟨po, pc, pe⟩ := runLoop_cons_success_parts wf runId
        validatedInput step rest i context currentOutput clock out2 ts _ _
        hes
      rw [po] at hok
      obtain ⟨cl, hlast⟩ := ih (i + 1) _ out2 (clock + 2) v hok
      refine ⟨cl, ?_⟩
      rw [pe, pc, saves_block evs hse]
      exact getLast?_cons_of_getLast? _ _ _ hlast
    | running ts =>
      obtain ⟨po, pc, pe⟩ := runLoop_cons_running_parts wf runId
        validatedInput step rest i context currentOutput clock ts _ _ hes
      rw [po] at hok
      obtain ⟨cl, hlast⟩ := ih (i + 1) _ currentOutput (clock + 2) v hok
      refine ⟨cl, ?_⟩
      rw [pe, pc, saves_block evs hse]
      exact getLast?_cons_of_getLast? _ _ _ hlast

/-- Characterization of a run whose final recorded result for the step at
index `k` is `failed`: the loop throws exactly that step's error, the
execution path extends the entry path by the indices `i..i+k`, later steps
get no recorded result and their execution functions are never invoked. -/
theorem runLoop_fail_char (wf : Workflow) (runId : String)
    (validatedInput : Value) :
    ∀ (L : List Step) (i : Nat) (context : ExecutionContext)
      (currentOutput : Value) (clock : Nat) (k : Nat) (stepK : Step)
      (e : EngineError) (ts : Nat),
      L[k]? = some stepK →
      (∀ s ∈ L, lookupStepResult context.stepResults s.id = none) →
      (L.map Step.id).Nodup →
      lookupStepResult
        (runLoop wf runId validatedInput L i context currentOutput
          clock).context.stepResults stepK.id = some (.failed e ts) →
      (runLoop wf runId validatedInput L i context currentOutput
          clock).outcome = .error e ∧
      (runLoop wf runId validatedInput L i context currentOutput
          clock).context.executionPath =
        context.executionPath ++ List.range' i (k + 1) ∧
      (∀ m stepM, k < m → L[m]? = some stepM →
        lookupStepResult
          (runLoop wf runId validatedInput L i context currentOutput
            clock).context.stepResults stepM.id = none ∧
        ∀ c, Event.invoke stepM.id c ∉
          (runLoop wf runId validatedInput L i context currentOutput
            clock).events) := by
  intro L
  induction L with
  | nil =>
    intro i context currentOutput clock k stepK e ts hk hdisj hnodup hfail
    rw [List.getElem?_nil] at hk
    exact Option.noConfusion hk
  | cons step rest ih =>
    intro i context currentOutput clock k stepK e ts hk hdisj hnodup hfail
    rw [List.map_cons] at hnodup
    obtain ⟨hnotin, hnodup2⟩ := List.nodup_cons.mp hnodup
    rcases hes : executeStep step
        { context with executionPath := context.executionPath ++ [i] }
        currentOutput clock with ⟨result, ctx2, evs⟩
    have hevs : ∀ ev ∈ evs, ∃ c0, ev = Event.invoke step.id c0 := by
      have h := executeStep_events_sub step
        { context with executionPath := context.executionPath ++ [i] }
        currentOutput clock
      rw [hes] at h
      exact h
    obtain ⟨st, rfl⟩ : ∃ st, ctx2 =
        { context with
          executionPath := context.executionPath ++ [i], state := st } := by
      have h := executeStep_context step
        { context with executionPath := context.executionPath ++ [i] }
        currentOutput clock
      rw [hes] at h
      exact h
    cases result with
    | failed e2 ts2 =>
      obtain ⟨po, pc, pe⟩ := runLoop_cons_failed_parts wf runId
        validatedInput step rest i context currentOutput clock e2 ts2 _ _
        hes
      rw [pc] at hfail
      cases k with
      | zero =>
        rw [List.getElem?_cons_zero] at hk
        obtain rfl := Option.some.inj hk
        have hfail2 : lookupStepResult
            (setStepResult context.stepResults step.id (.failed e2 ts2))
            step.id = some (.failed e ts) := hfail
        rw [lookup_setStepResult_self] at hfail2
        have hinj := Option.some.inj hfail2
        injection hinj with he hts
        subst he
        refine ⟨po, ?_, ?_⟩
        · rw [pc, List.range'_one]
        · intro m stepM hm hkm
          cases m with
          | zero => exact absurd hm (Nat.lt_irrefl 0)
          | succ m2 =>
            rw [List.getElem?_cons_succ] at hkm
            have hmem : stepM ∈ rest := mem_of_getElem_some hkm
            have hne : stepM.id ≠ step.id := by
              intro hc
              exact hnotin (hc ▸ List.mem_map_of_mem Step.id hmem)
            constructor
            · rw [pc]
              have hlk : lookupStepResult
                  (setStepResult context.stepResults step.id
                    (.failed e2 ts2)) stepM.id =
                  lookupStepResult context.stepResults stepM.id :=
                lookup_setStepResult_ne _ _ _ _ hne
              exact hlk.trans (hdisj stepM (List.mem_cons_of_mem step hmem))
            · intro c hc
              rw [pe] at hc
              rcases List.mem_append.mp hc with hc | hc
              · obtain ⟨c0, hc0⟩ := hevs _ hc
                injection hc0 with h1 h2
                exact hne h1
              · rcases List.mem_singleton.mp hc with hceq
                exact Event.noConfusion hceq
      | succ k2 =>
        rw [List.getElem?_cons_succ] at hk
        have hmemK : stepK ∈ rest := mem_of_getElem_some hk
        have hneK : stepK.id ≠ step.id := by
          intro hc
          exact hnotin (hc ▸ List.mem_map_of_mem Step.id hmemK)
        have hfail2 : lookupStepResult
            (setStepResult context.stepResults step.id (.failed e2 ts2))
            stepK.id = some (.failed e ts) := hfail
        rw [lookup_setStepResult_ne _ _ _ _ hneK,
          hdisj stepK (List.mem_cons_of_mem step hmemK)] at hfail2
        exact Option.noConfusion hfail2
    | success out2 ts2 =>
      obtain ⟨po, pc, pe⟩ := runLoop_cons_success_parts wf runId
        validatedInput step rest i context currentOutput clock out2 ts2 _ _
        hes
      rw [pc] at hfail
      cases k with
      | zero =>
        rw [List.getElem?_cons_zero] at hk
        obtain rfl := Option.some.inj hk
        rw [runLoop_preserves_other_ids wf runId validatedInput rest (i + 1)
          _ out2 (clock + 2) step.id hnotin] at hfail
        have hfail2 : lookupStepResult
            (setStepResult context.stepResults step.id (.success out2 ts2))
            step.id = some (.failed e ts) := hfail
        rw [lookup_setStepResult_self] at hfail2
        exact StepResult.noConfusion (Option.some.inj hfail2)
      | succ k2 =>
        rw [List.getElem?_cons_succ] at hk
        have hdisj2 : ∀ s ∈ rest, lookupStepResult
            (setStepResult context.stepResults step.id
              (.success out2 ts2)) s.id = none := by
          intro s hs
          have hne : s.id ≠ step.id := by
            intro hc
            exact hnotin (hc ▸ List.mem_map_of_mem Step.id hs)
          rw [lookup_setStepResult_ne _ _ _ _ hne]
          exact hdisj s (List.mem_cons_of_mem step hs)
        obtain ⟨ih1, ih2, ih3⟩ := ih (i + 1) _ out2 (clock + 2) k2 stepK e
          ts hk hdisj2 hnodup2 hfail
        refine ⟨?_, ?_, ?_⟩
        · rw [po]
          exact ih1
        · rw [pc, ih2]
          show (context.executionPath ++ [i]) ++
              List.range' (i + 1) (k2 + 1) =
            context.executionPath ++ List.range' i (k2 + 1 + 1)
          rw [List.append_assoc]
          conv_rhs => rw [List.range'_succ]
          rfl
        · intro m stepM hm hkm
          cases m with
          | zero => exact absurd hm (Nat.not_lt_zero _)
          | succ m2 =>
            rw [List.getElem?_cons_succ] at hkm
            have hmem : stepM ∈ rest := mem_of_getElem_some hkm
            have hne : stepM.id ≠ step.id := by
              intro hc
              exact hnotin (hc ▸ List.mem_map_of_mem Step.id hmem)
            obtain ⟨ihl, ihi⟩ := ih3 m2 stepM (Nat.lt_of_succ_lt_succ hm)
              hkm
            constructor
            · rw [pc]
              exact ihl
            · intro c hc
              rw [pe] at hc
              rcases List.mem_append.mp hc with hc | hc
              · rcases List.mem_append.mp hc with hc | hc
                · obtain ⟨c0, hc0⟩ := hevs _ hc
                  injection hc0 with h1 h2
                  exact hne h1
                · rcases List.mem_singleton.mp hc with hceq
                  exact Event.noConfusion hceq
              · exact ihi c hc
    | running ts2 =>
      obtain ⟨po, pc, pe⟩ := runLoop_cons_running_parts wf runId
        validatedInput step rest i context currentOutput clock ts2 _ _ hes
      rw [pc] at hfail
      cases k with
      | zero =>
        rw [List.getElem?_cons_zero] at hk
        obtain rfl := Option.some.inj hk
        rw [runLoop_preserves_other_ids wf runId validatedInput rest (i + 1)
          _ currentOutput (clock + 2) step.id hnotin] at hfail
        have hfail2 : lookupStepResult
            (setStepResult context.stepResults step.id (.running ts2))
            step.id = some (.failed e ts) := hfail
        rw [lookup_setStepResult_self] at hfail2
        exact StepResult.noConfusion (Option.some.inj hfail2)
      | succ k2 =>
        rw [List.getElem?_cons_succ] at hk
        have hdisj2 : ∀ s ∈ rest, lookupStepResult
            (setStepResult context.stepResults step.id
              (.running ts2)) s.id = none := by
          intro s hs
          have hne : s.id ≠ step.id := by
            intro hc
            exact hnotin (hc ▸ List.mem_map_of_mem Step.id hs)
          rw [lookup_setStepResult_ne _ _ _ _ hne]
          exact hdisj s (List.mem_cons_of_mem step hs)
        obtain ⟨ih1, ih2, ih3⟩ := ih (i + 1) _ currentOutput (clock + 2) k2
          stepK e ts hk hdisj2 hnodup2 hfail
        refine ⟨?_, ?_, ?_⟩
        · rw [po]
          exact ih1
        · rw [pc, ih2]
          show (context.executionPath ++ [i]) ++
              List.range' (i + 1) (k2 + 1) =
            context.executionPath ++ List.range' i (k2 + 1 + 1)
          rw [List.append_assoc]
          conv_rhs => rw [List.range'_succ]
          rfl
        · intro m stepM hm hkm
          cases m with
          | zero => exact absurd hm (Nat.not_lt_zero _)
          | succ m2 =>
            rw [List.getElem?_cons_succ] at hkm
            have hmem : stepM ∈ rest := mem_of_getElem_some hkm
            have hne : stepM.id ≠ step.id := by
              intro hc
              exact hnotin (hc ▸ List.mem_map_of_mem Step.id hmem)
            obtain ⟨ihl, ihi⟩ := ih3 m2 stepM (Nat.lt_of_succ_lt_succ hm)
              hkm
            constructor
            · rw [pc]
              exact ihl
            · intro c hc
              rw [pe] at hc
              rcases List.mem_append.mp hc with hc | hc
              · rcases List.mem_append.mp hc with hc | hc
                · obtain ⟨c0, hc0⟩ := hevs _ hc
                  injection hc0 with h1 h2
                  exact hne h1
                · rcases List.mem_singleton.mp hc with hceq
                  exact Event.noConfusion hceq
              · exact ihi c hc

/-- C3: in a run whose durable record shows a `failed` StepResult for the
step at index k (step ids distinct), the engine threw exactly that step's
error, the final persisted snapshot has status `failed`, error message
equal to the step's error message and execution path `[0, …, k]`, and
every step after index k has no recorded StepResult and its execution
function was never invoked. -/
theorem c3_fail_fast (wf : Workflow) (runId : String) (input : Value)
    (initialState : Option Value) (clock : Nat) (k : Nat) (stepK : Step)
    (e : EngineError) (ts : Nat) (snap : WorkflowSnapshot)
    (hnodup : (wf.stepFlow.map Step.id).Nodup)
    (hk : wf.stepFlow[k]? = some stepK)
    (hlast : (saves (execute wf runId input initialState clock).2).getLast?
      = some snap)
    (hfail : lookupStepResult snap.stepResults stepK.id =
      some (.failed e ts)) :
    snap.status = RunStatus.failed ∧
    snap.executionPath = List.range (k + 1) ∧
    snap.error = some e.message ∧
    (execute wf runId input initialState clock).1 = .error e ∧
    (∀ m stepM, k < m → wf.stepFlow[m]? = some stepM →
      lookupStepResult snap.stepResults stepM.id = none ∧
      ∀ c, Event.invoke stepM.id c ∉
        (execute wf runId input initialState clock).2) := by
  cases hparse : wf.inputSchema.parse input with
  | error e0 =>
    have htr : execute wf runId input initialState clock =
        (.error e0, []) := by
      simp only [execute, hparse]
    rw [htr] at hlast
    exact Option.noConfusion hlast
  | ok w =>
    have hdisj : ∀ s ∈ wf.stepFlow,
        lookupStepResult
          ({ workflowId := wf.id
             runId := runId
             executionPath := []
             stepResults := []
             state := initialContextState wf initialState
             inputData := w } : ExecutionContext).stepResults s.id =
          none := fun s hs => rfl
    revert hlast
    simp only [execute, hparse]
    split
    · rename_i v2 houtcome
      intro hlast
      obtain ⟨cl, hlastS⟩ := runLoop_ok_last_save wf runId w wf.stepFlow 0
        { workflowId := wf.id
          runId := runId
          executionPath := []
          stepResults := []
          state := initialContextState wf initialState
          inputData := w } w (clock + 1) v2 houtcome
      rw [saves_save_cons, getLast?_cons_of_getLast? _ _ _ hlastS] at hlast
      obtain rfl := Option.some.inj hlast
      have hfailC : lookupStepResult
          (runLoop wf runId w wf.stepFlow 0
            { workflowId := wf.id
              runId := runId
              executionPath := []
              stepResults := []
              state := initialContextState wf initialState
              inputData := w } w (clock + 1)).context.stepResults stepK.id =
          some (.failed e ts) := hfail
      obtain ⟨hout, -, -⟩ := runLoop_fail_char wf runId w wf.stepFlow 0
        { workflowId := wf.id
          runId := runId
          executionPath := []
          stepResults := []
          state := initialContextState wf initialState
          inputData := w } w (clock + 1) k stepK e ts hk hdisj hnodup hfailC
      rw [houtcome] at hout
      exact Except.noConfusion hout
    · rename_i e0 houtcome
      intro hlast
      rw [saves_last_of_append] at hlast
      obtain rfl := Option.some.inj hlast
      have hfailC : lookupStepResult
          (runLoop wf runId w wf.stepFlow 0
            { workflowId := wf.id
              runId := runId
              executionPath := []
              stepResults := []
              state := initialContextState wf initialState
              inputData := w } w (clock + 1)).context.stepResults stepK.id =
          some (.failed e ts) := hfail
      obtain ⟨hout, hpath, hafter⟩ := runLoop_fail_char wf runId w
        wf.stepFlow 0
        { workflowId := wf.id
          runId := runId
          executionPath := []
          stepResults := []
          state := initialContextState wf initialState
          inputData := w } w (clock + 1) k stepK e ts hk hdisj hnodup hfailC
      rw [houtcome] at hout
      obtain rfl := Except.error.inj hout
      have hpath2 : (runLoop wf runId w wf.stepFlow 0
          { workflowId := wf.id
            runId := runId
            executionPath := []
            stepResults := []
            state := initialContextState wf initialState
            inputData := w } w (clock + 1)).context.executionPath =
          List.range (k + 1) := by
        rw [hpath, List.range_eq_range']
        rfl
      refine ⟨rfl, hpath2, rfl, rfl, ?_⟩
      intro m stepM hm hkm
      obtain ⟨ihl, ihi⟩ := hafter m stepM hm hkm
      refine ⟨ihl, ?_⟩
      intro c hc
      rcases List.mem_cons.mp hc with hceq | hc
      · exact Event.noConfusion hceq
      · rcases List.mem_append.mp hc with hc | hc
        · exact ihi c hc
        · rcases List.mem_singleton.mp hc with hceq
          exact Event.noConfusion hceq

/-- Witness for C3: in `wf-three` on input 1 the step `boom` (index 1)
fails; the final snapshot is `failed` with path `[0, 1]` and error
"boom", the caller sees the step's error, and the third step
`read-state` has no recorded result and is never invoked. -/
theorem c3_witness :
    snapThree.status = RunStatus.failed ∧
    snapThree.executionPath = List.range 2 ∧
    snapThree.error = some "boom" ∧
    (execute wfThree "r3" (Value.num 1) none 0).1 =
      .error (.error "boom") ∧
    (lookupStepResult snapThree.stepResults "read-state" = none ∧
     ∀ c, Event.invoke "read-state" c ∉
       (execute wfThree "r3" (Value.num 1) none 0).2) := by
  obtain ⟨h1, h2, h3, h4, h5⟩ := c3_fail_fast wfThree "r3" (Value.num 1)
    none 0 1 boomStep (.error "boom") 3 snapThree (by decide) rfl rfl rfl
  exact ⟨h1, h2, h3, h4, h5 2 readStateStep (by decide) rfl⟩

end Wrkflw
